import Mathlib

/-!
Verification development for the HeartQL health-data pipeline
(scripts/health_to_sqlite.py and scripts/health_postprocess.py).

Modelling conventions:
* Python strings are lists of characters (`Text`).
* Python floats are idealized as real numbers `ℝ` where trigonometry is
  involved (route distances) and as rationals `ℚ` where the values come
  from exact decimal literals (ECG samples, SQLite CAST results).
* Directory scans are modelled by the name-sorted listing that
  `sorted(os.listdir(dir))` produces: a list of file names paired with
  the parsed content of the file (track points for GPX, CSV rows for ECG).
* SQLite tables are lists of rows in insertion order; `INSERT OR IGNORE`
  drops a row whenever one of its uniqueness constraints (integer primary
  key, UNIQUE file_path) is already violated by a stored row.
-/

/-- Text is modelled as a list of characters. -/
abbrev Text := List Char

/-- Characters matched by Python's `\s` regex class and stripped by
`str.strip()` (Unicode whitespace). -/
def isPySpace (c : Char) : Bool :=
  c = ' ' || c = '\t' || c = '\n' || c = '\r' || c = '\x0b' || c = '\x0c' ||
  c = '\x1c' || c = '\x1d' || c = '\x1e' || c = '\x1f' || c = '\x85' ||
  c = '\u00a0' || c = '\u1680' ||
  ('\u2000' ≤ c && c ≤ '\u200a') ||
  c = '\u2028' || c = '\u2029' || c = '\u202f' || c = '\u205f' || c = '\u3000'

/-- Python `str.strip()`: drop leading and trailing whitespace. -/
def pyStrip (l : Text) : Text :=
  ((l.dropWhile isPySpace).reverse.dropWhile isPySpace).reverse

/-- Character-level effect of the two `str.replace` calls in
`normalize_source_name`: curly apostrophes become a straight apostrophe and
the no-break space becomes a plain space (all patterns are single
characters, so the replacements act character-wise). -/
def replChar (c : Char) : Char :=
  if c = '\u2019' then '\'' else if c = '\u2018' then '\'' else
  if c = '\u00a0' then ' ' else c

/-- First half of `re.sub(r"\s+", " ", s)`: send every whitespace character
to a plain space. -/
def wsToSpace (c : Char) : Char := if isPySpace c then ' ' else c

/-- Second half of `re.sub(r"\s+", " ", s)`: collapse each run of adjacent
spaces (all whitespace has already been mapped to a space) to one space. -/
def squeeze : Text → Text
  | [] => []
  | [c] => [c]
  | a :: b :: rest =>
      if a = ' ' && b = ' ' then squeeze (b :: rest)
      else a :: squeeze (b :: rest)

/-- Body of `normalize_source_name` on a non-null string: apply the
character replacements, collapse whitespace runs to single spaces and strip
the ends. -/
def normalizeChars (l : Text) : Text :=
  pyStrip (squeeze ((l.map replChar).map wsToSpace))

/-- The function `normalize_source_name` of health_postprocess.py. -/
def normalize_source_name : Option Text → Option Text
  | none => none
  | some l => some (normalizeChars l)

/-- ASCII digit test (`\d` in the ECG number regex). -/
def isDigitChar (c : Char) : Bool := '0' ≤ c && c ≤ '9'

/-- Numeric value of a string of decimal digits. -/
def digitsVal (l : Text) : Nat :=
  l.foldl (fun a c => a * 10 + (c.toNat - '0'.toNat)) 0

/-- Does `l` match `\d+(\.\d+)?` exactly (the unsigned body of the ECG
sample regex `^[+-]?\d+(\.\d+)?$`)? -/
def numBodyOk (l : Text) : Bool :=
  let ip := l.takeWhile isDigitChar
  let r := l.dropWhile isDigitChar
  !ip.isEmpty &&
    (r.isEmpty ||
      (r.head? = some '.' && !(r.drop 1).isEmpty && (r.drop 1).all isDigitChar))

/-- Does `l` match the ECG sample regex `^[+-]?\d+(\.\d+)?$`? -/
def isNumberText (l : Text) : Bool :=
  match l with
  | [] => numBodyOk []
  | c :: rest =>
      if c = '+' then numBodyOk rest
      else if c = '-' then numBodyOk rest
      else numBodyOk (c :: rest)

/-- Exact rational value of an unsigned decimal string `\d+(\.\d+)?`
(idealizing Python's `float`). -/
def numBodyVal (l : Text) : ℚ :=
  let ip := l.takeWhile isDigitChar
  let fp := ((l.dropWhile isDigitChar).drop 1).takeWhile isDigitChar
  (digitsVal ip : ℚ) + (digitsVal fp : ℚ) / (10 : ℚ) ^ fp.length

/-- Signed value of a string matching the ECG sample regex. -/
def numberVal (l : Text) : ℚ :=
  match l with
  | [] => numBodyVal []
  | c :: rest =>
      if c = '+' then numBodyVal rest
      else if c = '-' then - numBodyVal rest
      else numBodyVal (c :: rest)

/-- State built by `parse_ecg_csv`: the metadata dict (later assignments to
the same key overwrite) and the sample list in file order. -/
structure EcgParseState where
  metadata : Text → Option Text
  samples : List ℚ

/-- Python dict assignment `metadata[key] = value`. -/
def mdUpdate (m : Text → Option Text) (k v : Text) : Text → Option Text :=
  fun x => if x = k then some v else m x

/-- One iteration of the row loop in `parse_ecg_csv`: empty rows are
skipped; a single-field row is stripped, dropped when empty or non-numeric
and appended to the samples when it matches the number regex; any longer
row stores field 1 under field 0 in the metadata dict, ignoring the rest. -/
def ecgRowStep (st : EcgParseState) (row : List Text) : EcgParseState :=
  match row with
  | [] => st
  | [v] =>
      let v' := pyStrip v
      if v'.isEmpty then st
      else if isNumberText v' then ⟨st.metadata, st.samples ++ [numberVal v']⟩
      else st
  | k :: v :: _ => ⟨mdUpdate st.metadata (pyStrip k) (pyStrip v), st.samples⟩

/-- The function `parse_ecg_csv` of health_postprocess.py, over the list of
rows produced by `csv.reader`. -/
def parse_ecg_csv (rows : List (List Text)) : EcgParseState :=
  rows.foldl ecgRowStep ⟨fun _ => none, []⟩

/-- Composite character-level normalization: the `str.replace` calls
followed by the whitespace-to-space mapping of the regex substitution. -/
def charNorm (c : Char) : Char := wsToSpace (replChar c)

/-- Adjacency invariant of the collapsed form: no two neighbouring plain
spaces. -/
def SpacedOk (l : Text) : Prop :=
  List.Chain' (fun x y => ¬(x = ' ' ∧ y = ' ')) l

/-- Trailing-whitespace removal (the second half of `str.strip()`). -/
def dropTrail (l : Text) : Text := (l.reverse.dropWhile isPySpace).reverse

/-- Pairs of raw strings that, per the spec, differ only in apostrophe
glyph (curly vs straight), in a whitespace character's identity
(non-breaking vs regular space, or any Unicode whitespace), in the length
of a whitespace run, or in leading/trailing whitespace: the closure of the
single-edit generators under reflexivity, symmetry and transitivity. -/
inductive NormEquiv : Text → Text → Prop
  | refl (l : Text) : NormEquiv l l
  | symm {a b : Text} : NormEquiv a b → NormEquiv b a
  | trans {a b c : Text} : NormEquiv a b → NormEquiv b c → NormEquiv a c
  | aposR (a b : Text) : NormEquiv (a ++ '’' :: b) (a ++ '\'' :: b)
  | aposL (a b : Text) : NormEquiv (a ++ '‘' :: b) (a ++ '\'' :: b)
  | nbspace (a b : Text) : NormEquiv (a ++ ' ' :: b) (a ++ ' ' :: b)
  | wsChar (a b : Text) (w u : Char) (hw : isPySpace w = true)
      (hu : isPySpace u = true) : NormEquiv (a ++ w :: b) (a ++ u :: b)
  | wsRun (a b : Text) (w u : Char) (hw : isPySpace w = true)
      (hu : isPySpace u = true) : NormEquiv (a ++ w :: u :: b) (a ++ u :: b)
  | wsLead (l : Text) (w : Char) (hw : isPySpace w = true) :
      NormEquiv (w :: l) l
  | wsTrail (l : Text) (w : Char) (hw : isPySpace w = true) :
      NormEquiv (l ++ [w]) l

/-- A GPX track point as parsed by import_workout_routes: optional
latitude, longitude and elevation (floats idealized as reals) and an
optional timestamp string. -/
structure RoutePoint where
  lat : Option ℝ
  lon : Option ℝ
  ele : Option ℝ
  time : Option Text

/-- Degrees to radians (math.radians). -/
noncomputable def radians (x : ℝ) : ℝ := x * Real.pi / 180

/-- The function haversine_km of health_postprocess.py: great-circle
distance in km on a sphere of mean Earth radius 6371.0088, with the
intermediate quantities of the source inlined. -/
noncomputable def haversine_km (lat1 lon1 lat2 lon2 : ℝ) : ℝ :=
  2 * 6371.0088 *
    Real.arcsin (Real.sqrt (Real.sin (radians (lat2 - lat1) / 2) ^ 2 +
      Real.cos (radians lat1) * Real.cos (radians lat2) *
        Real.sin (radians (lon2 - lon1) / 2) ^ 2))

/-- One iteration of the distance loop of import_workout_routes: the state
is the accumulated distance together with `last_point`, the most recent
point whose lat and lon were both non-null; a point missing a coordinate
leaves the state untouched. -/
noncomputable def routeDistStep (st : ℝ × Option (ℝ × ℝ)) (p : RoutePoint) :
    ℝ × Option (ℝ × ℝ) :=
  match p.lat, p.lon with
  | some lat, some lon =>
      match st.2 with
      | some lp => (st.1 + haversine_km lat lon lp.1 lp.2, some (lat, lon))
      | none => (st.1, some (lat, lon))
  | _, _ => st

/-- The distance_km value accumulated by import_workout_routes over the
points of one route file, in file order. -/
noncomputable def routeDistance (points : List RoutePoint) : ℝ :=
  (points.foldl routeDistStep (0, none)).1

/-- The subsequence of points having both coordinates non-null, reduced to
their (lat, lon) pairs, in file order. -/
def validPoints (points : List RoutePoint) : List (ℝ × ℝ) :=
  points.filterMap fun p =>
    match p.lat, p.lon with
    | some lat, some lon => some (lat, lon)
    | _, _ => none

/-- Sum of haversine distances over consecutive pairs of a coordinate
list, with the argument order of the source's call
`haversine_km(lat, lon, last_point[0], last_point[1])`. -/
noncomputable def consecHavSum : List (ℝ × ℝ) → ℝ
  | [] => 0
  | [_] => 0
  | p :: q :: rest => haversine_km q.1 q.2 p.1 p.2 + consecHavSum (q :: rest)

/-- Distance as claim C1 words it, written from the spec sentence for
comparison with `routeDistance`: a haversine term for every consecutive
pair *in file order* whose two members both have non-null coordinates, and
no term for any pair involving a point with a missing coordinate. -/
noncomputable def specFileOrderDistance : List RoutePoint → ℝ
  | p :: q :: rest =>
      (match p.lat, p.lon, q.lat, q.lon with
        | some la1, some lo1, some la2, some lo2 => haversine_km la2 lo2 la1 lo1
        | _, _, _, _ => 0) + specFileOrderDistance (q :: rest)
  | _ => 0

/-- The three-point route used to separate the code's distance from the
claim's: a geolocated point at (0, 0), a point with a null latitude, and a
geolocated point at (0, 90). -/
noncomputable def gapPoints : List RoutePoint :=
  [⟨some 0, some 0, none, none⟩, ⟨none, some 1, none, none⟩,
    ⟨some 0, some 90, none, none⟩]

/-- The seven entity kinds dispatched by the end-event handler of the main
loop of health_to_sqlite.py. -/
inductive EntityKind
  | record | workout | correlation | activitySummary | clinicalRecord
  | audiogram | visionPrescr
deriving DecidableEq

/-- State of the main ingestion loop of health_to_sqlite.py: the per-kind
id counters (record_id, workout_id, ...), the per-table row buffers
(rows_by_table, modelled by the assigned ids of the buffered rows), the
committed table contents, and the number of mid-stream flushes performed
so far. -/
structure IngestState where
  counters : EntityKind → Nat
  buffers : EntityKind → List Nat
  tables : EntityKind → List Nat
  midFlushes : Nat

/-- Counters start at 0, buffers and tables empty (fresh output store). -/
def initIngest : IngestState := ⟨fun _ => 0, fun _ => [], fun _ => [], 0⟩

/-- The function flush of health_to_sqlite.py: one bulk insert per
buffered table inside a committed transaction, then clear every buffer. -/
def flushTables (st : IngestState) : IngestState :=
  ⟨st.counters, fun _ => [], fun k => st.tables k ++ st.buffers k,
    st.midFlushes⟩

/-- Handling one element of kind k: increment that kind's id counter and
buffer the new row (carrying the freshly assigned id) under its table. -/
def bufferRow (st : IngestState) (k : EntityKind) : IngestState :=
  ⟨fun j => if j = k then st.counters k + 1 else st.counters j,
    fun j => if j = k then st.buffers j ++ [st.counters k + 1]
      else st.buffers j,
    st.tables, st.midFlushes⟩

/-- One end-event iteration of the main loop: buffer the element's row,
then flush when the records buffer has reached the batch size — the code
checks `len(rows_by_table["records"]) >= args.batch_size` and no other
buffer. -/
def ingestStep (bs : Nat) (st : IngestState) (k : EntityKind) : IngestState :=
  let st1 := bufferRow st k
  if bs ≤ (st1.buffers EntityKind.record).length then
    ⟨st1.counters, fun _ => [], fun j => st1.tables j ++ st1.buffers j,
      st1.midFlushes + 1⟩
  else st1

/-- The main loop over the parsed element stream. -/
def ingestRun (elems : List EntityKind) (bs : Nat) : IngestState :=
  elems.foldl (ingestStep bs) initIngest

/-- End of main: the final unconditional flush. -/
def ingestFinal (elems : List EntityKind) (bs : Nat) : IngestState :=
  flushTables (ingestRun elems bs)

/-- The function _next_id of health_postprocess.py: one more than the
stored maximum id, or 1 when the table is empty (SELECT MAX over an empty
table yields NULL); MAX over the empty list is modelled as 0. -/
def nextIdOf (ids : List Nat) : Nat := ids.foldr max 0 + 1

/-- Plain INSERT of rows carrying explicit integer primary keys, as the
primary ingestion uses: SQLite raises IntegrityError when an inserted id
collides with a stored one (aborting the batch), otherwise the rows are
appended. -/
def insertStrict (existing newIds : List Nat) : Except Unit (List Nat) :=
  if newIds.any (fun i => existing.contains i) then Except.error ()
  else Except.ok (existing ++ newIds)

/-- ASCII lowercasing, the effect of Python's str.lower on the characters
relevant to the extension tests. -/
def lowerChar (c : Char) : Char :=
  if 'A' ≤ c ∧ c ≤ 'Z' then Char.ofNat (c.toNat + 32) else c

/-- Does pat occur at the front of l? -/
def beginsWith : Text → Text → Bool
  | [], _ => true
  | _ :: _, [] => false
  | p :: ps, c :: cs => p = c && beginsWith ps cs

/-- Python str.endswith. -/
def endsWithText (l pat : Text) : Bool := beginsWith pat.reverse l.reverse

/-- The filter `name.lower().endswith(".gpx")` of import_workout_routes. -/
def isGpxName (name : Text) : Bool :=
  endsWithText (name.map lowerChar) ['.', 'g', 'p', 'x']

/-- The filter `name.lower().endswith(".csv")` of import_ecg. -/
def isCsvName (name : Text) : Bool :=
  endsWithText (name.map lowerChar) ['.', 'c', 's', 'v']

/-- os.path.join with one component. -/
def joinPath (dir name : Text) : Text := dir ++ '/' :: name

/-- Python min over a nonempty list, none for the empty one. -/
noncomputable def listMin : List ℝ → Option ℝ
  | [] => none
  | x :: xs => some (xs.foldl min x)

/-- Python max over a nonempty list, none for the empty one. -/
noncomputable def listMax : List ℝ → Option ℝ
  | [] => none
  | x :: xs => some (xs.foldl max x)

/-- A stored workout_routes row. -/
structure RouteRow where
  id : Nat
  file_path : Text
  start_time : Option Text
  end_time : Option Text
  point_count : Nat
  distance_km : ℝ
  min_lat : Option ℝ
  max_lat : Option ℝ
  min_lon : Option ℝ
  max_lon : Option ℝ

/-- A stored workout_route_points row. -/
structure PointRow where
  route_id : Nat
  point_index : Nat
  lat : Option ℝ
  lon : Option ℝ
  ele : Option ℝ
  time : Option Text

/-- The workout_routes and workout_route_points tables. -/
structure RouteDB where
  routes : List RouteRow
  points : List PointRow

/-- The stored file paths of the route table (list_existing). -/
def routePaths (db : RouteDB) : List Text := db.routes.map RouteRow.file_path

/-- The stored ids of the route table. -/
def routeIds (db : RouteDB) : List Nat := db.routes.map RouteRow.id

/-- The workout_routes row built for one parsed file: id, path, first and
last point's timestamps, point count, accumulated distance, and the
per-axis bounding box over points with non-null coordinates. -/
noncomputable def mkRouteRow (rid : Nat) (path : Text)
    (pts : List RoutePoint) : RouteRow :=
  ⟨rid, path,
    (pts.head?.bind fun p => p.time),
    (pts.getLast?.bind fun p => p.time),
    pts.length, routeDistance pts,
    listMin (pts.filterMap fun p => p.lat),
    listMax (pts.filterMap fun p => p.lat),
    listMin (pts.filterMap fun p => p.lon),
    listMax (pts.filterMap fun p => p.lon)⟩

/-- The workout_route_points rows of one file: every parsed point, indexed
from 0 in file order, valid or not. -/
def mkPointRows (rid : Nat) (pts : List RoutePoint) : List PointRow :=
  pts.mapIdx fun i p => ⟨rid, i, p.lat, p.lon, p.ele, p.time⟩

/-- INSERT OR IGNORE into workout_routes: dropped when the UNIQUE
file_path or the integer primary key is already present. -/
noncomputable def insertRouteRow (db : RouteDB) (row : RouteRow) : RouteDB :=
  if row.file_path ∈ routePaths db ∨ row.id ∈ routeIds db then db
  else ⟨db.routes ++ [row], db.points⟩

/-- One iteration of the file loop of import_workout_routes, on state
(db, route_id, inserted): names not ending in .gpx (case-insensitively)
are skipped before parsing; with skip-existing enabled a path already
present at scan time is skipped; files parsing to zero points are skipped;
otherwise all point rows are inserted, the route row is inserted with
OR IGNORE semantics, and route_id and the inserted count advance. -/
noncomputable def routeFileStep (existing : List Text) (skip : Bool)
    (dir : Text) (st : RouteDB × Nat × Nat) (f : Text × List RoutePoint) :
    RouteDB × Nat × Nat :=
  if isGpxName f.1 = false then st
  else if skip = true ∧ joinPath dir f.1 ∈ existing then st
  else if f.2.isEmpty = true then st
  else
    (insertRouteRow ⟨st.1.routes, st.1.points ++ mkPointRows st.2.1 f.2⟩
        (mkRouteRow st.2.1 (joinPath dir f.1) f.2),
      st.2.1 + 1, st.2.2 + 1)

/-- The function import_workout_routes of health_postprocess.py over the
name-sorted directory listing (file name paired with its parsed points),
returning the updated store and the inserted count; buffered flushing is
order-preserving, so rows are modelled as inserted per file. -/
noncomputable def import_workout_routes (db : RouteDB) (dir : Text)
    (files : List (Text × List RoutePoint)) (skip : Bool) : RouteDB × Nat :=
  let res := files.foldl (routeFileStep (routePaths db) skip dir)
    (db, nextIdOf (routeIds db), 0)
  (res.1, res.2.2)

/-- A stored ecg_records row; the serialized metadata blob is idealized as
the metadata map itself. -/
structure EcgRow where
  id : Nat
  file_path : Text
  recorded_date : Option Text
  classification : Option Text
  symptoms : Option Text
  sample_rate_hz : Option ℚ
  lead : Option Text
  unit : Option Text
  device : Option Text
  software_version : Option Text
  extra : Text → Option Text

/-- A stored ecg_samples row. -/
structure SampleRow where
  ecg_id : Nat
  sample_index : Nat
  value : ℚ

/-- The ecg_records and ecg_samples tables. -/
structure EcgDB where
  records : List EcgRow
  samples : List SampleRow

/-- The stored file paths of the ECG table. -/
def ecgPaths (db : EcgDB) : List Text := db.records.map EcgRow.file_path

/-- The stored ids of the ECG table. -/
def ecgIds (db : EcgDB) : List Nat := db.records.map EcgRow.id

/-- First decimal number occurring anywhere in the text, as matched by
re.search in _parse_sample_rate. -/
def findNum : Text → Option ℚ
  | [] => none
  | c :: rest =>
      if isDigitChar c then some (numBodyVal (c :: rest)) else findNum rest

/-- The function _parse_sample_rate of health_postprocess.py. -/
def parse_sample_rate : Option Text → Option ℚ
  | none => none
  | some s => if s.isEmpty then none else findNum s

/-- The ecg_records row built for one parsed file: promoted metadata
columns plus the full metadata map. -/
def mkEcgRow (eid : Nat) (path : Text) (parsed : EcgParseState) : EcgRow :=
  ⟨eid, path,
    parsed.metadata "Recorded Date".toList,
    parsed.metadata "Classification".toList,
    parsed.metadata "Symptoms".toList,
    parse_sample_rate (parsed.metadata "Sample Rate".toList),
    parsed.metadata "Lead".toList,
    parsed.metadata "Unit".toList,
    parsed.metadata "Device".toList,
    parsed.metadata "Software Version".toList,
    parsed.metadata⟩

/-- The ecg_samples rows of one file, indexed from 0 in file order. -/
def mkSampleRows (eid : Nat) (samples : List ℚ) : List SampleRow :=
  samples.mapIdx fun i v => ⟨eid, i, v⟩

/-- INSERT OR IGNORE into ecg_records. -/
def insertEcgRow (db : EcgDB) (row : EcgRow) : EcgDB :=
  if row.file_path ∈ ecgPaths db ∨ row.id ∈ ecgIds db then db
  else ⟨db.records ++ [row], db.samples⟩

/-- One iteration of the file loop of import_ecg, on state
(db, ecg_id, inserted), mirroring the route loop with the .csv filter and
the zero-sample skip. -/
def ecgFileStep (existing : List Text) (skip : Bool) (dir : Text)
    (st : EcgDB × Nat × Nat) (f : Text × List (List Text)) :
    EcgDB × Nat × Nat :=
  if isCsvName f.1 = false then st
  else if skip = true ∧ joinPath dir f.1 ∈ existing then st
  else if (parse_ecg_csv f.2).samples.isEmpty = true then st
  else
    (insertEcgRow
        ⟨st.1.records,
          st.1.samples ++ mkSampleRows st.2.1 (parse_ecg_csv f.2).samples⟩
        (mkEcgRow st.2.1 (joinPath dir f.1) (parse_ecg_csv f.2)),
      st.2.1 + 1, st.2.2 + 1)

/-- The function import_ecg of health_postprocess.py over the name-sorted
directory listing (file name paired with its CSV rows). -/
def import_ecg (db : EcgDB) (dir : Text)
    (files : List (Text × List (List Text))) (skip : Bool) : EcgDB × Nat :=
  let res := files.foldl (ecgFileStep (ecgPaths db) skip dir)
    (db, nextIdOf (ecgIds db), 0)
  (res.1, res.2.2)

/-- ASCII whitespace skipped by SQLite's text-to-number conversion. -/
def isAsciiWs (c : Char) : Bool :=
  c = ' ' || c = '\t' || c = '\n' || c = '\x0b' || c = '\x0c' || c = '\r'

/-- Split off a leading run of decimal digits. -/
def spanDigits (l : Text) : Text × Text :=
  (l.takeWhile isDigitChar, l.dropWhile isDigitChar)

/-- Optional leading sign: (negative?, rest). -/
def parseSign (l : Text) : Bool × Text :=
  match l with
  | [] => (false, [])
  | c :: rest =>
      if c = '-' then (true, rest)
      else if c = '+' then (false, rest)
      else (false, c :: rest)

/-- Tail of an exponent marker: optional sign then at least one digit,
otherwise nothing of the exponent is consumed. -/
def parseExpoTail (rest orig : Text) : Int × Text :=
  match parseSign rest with
  | (neg, r2) =>
      match spanDigits r2 with
      | (ds, r3) =>
          if ds.isEmpty then (0, orig)
          else (if neg then -(digitsVal ds : Int) else (digitsVal ds : Int),
            r3)

/-- Exponent suffix [eE][+-]?digits of SQLite's number syntax. -/
def parseExpo (l : Text) : Int × Text :=
  match l with
  | [] => (0, [])
  | c :: rest =>
      if c = 'e' then parseExpoTail rest l
      else if c = 'E' then parseExpoTail rest l
      else (0, c :: rest)

/-- Mantissa digits with optional fraction: value, whether any digit was
seen, rest. -/
def parseMantissa (l : Text) : ℚ × Bool × Text :=
  match spanDigits l with
  | (ip, r1) =>
      if r1.head? = some '.' then
        match spanDigits (r1.drop 1) with
        | (fp, r3) =>
            ((digitsVal ip : ℚ) + (digitsVal fp : ℚ) / (10 : ℚ) ^ fp.length,
              !(ip.isEmpty && fp.isEmpty), r3)
      else ((digitsVal ip : ℚ), !ip.isEmpty, r1)

/-- SQLite's text-to-REAL conversion (sqlite3AtoF), the meaning of
CAST(value AS REAL) in the records_norm view: skip ASCII whitespace, read
an optional sign, mantissa digits with optional fraction and exponent, use
the longest valid numeric prefix, and yield 0.0 when no digit occurs. -/
def sqliteTextToReal (l : Text) : ℚ :=
  match parseSign (l.dropWhile isAsciiWs) with
  | (neg, l2) =>
      match parseMantissa l2 with
      | (m, sawDigit, r) =>
          if sawDigit then
            (if neg then -m else m) * (10 : ℚ) ^ (parseExpo r).1
          else 0

/-- The value_num column of the records_norm view: CAST(r.value AS REAL),
null exactly for a null stored value. -/
def recordsNormValueNum : Option Text → Option ℚ
  | none => none
  | some s => some (sqliteTextToReal s)

/-- value_num as claim C3 words it, written from the spec sentence for
comparison with `recordsNormValueNum`: the numeric reading of the stored
text when it is numeric, null whenever it is not. -/
def specValueNum : Option Text → Option ℚ
  | none => none
  | some s => if isNumberText s then some (numberVal s) else none

lemma normalizeChars_eq_map (l : Text) :
    normalizeChars l = pyStrip (squeeze (l.map charNorm)) := by
  have h : wsToSpace ∘ replChar = charNorm := rfl
  rw [normalizeChars, List.map_map, h]

lemma charNorm_of_ws {c : Char} (h : isPySpace c = true) : charNorm c = ' ' := by
  unfold charNorm replChar wsToSpace
  by_cases h1 : c = '’'
  · subst h1; exact absurd h (by decide)
  · by_cases h2 : c = '‘'
    · subst h2; exact absurd h (by decide)
    · by_cases h3 : c = ' '
      · simp [h1, h2, h3]
      · simp [h1, h2, h3, h]

lemma charNorm_idem (c : Char) : charNorm (charNorm c) = charNorm c := by
  by_cases hw : isPySpace c = true
  · rw [charNorm_of_ws hw]; decide
  · by_cases h1 : c = '’'
    · subst h1; decide
    · by_cases h2 : c = '‘'
      · subst h2; decide
      · by_cases h3 : c = ' '
        · subst h3; decide
        · have hc : charNorm c = c := by
            unfold charNorm replChar wsToSpace
            simp [h1, h2, h3, hw]
          rw [hc, hc]

lemma squeeze_cons_cons (a b : Char) (l : Text) :
    squeeze (a :: b :: l) =
      if a = ' ' && b = ' ' then squeeze (b :: l) else a :: squeeze (b :: l) :=
  rfl

lemma squeeze_head? : ∀ (xs : Text) (x : Char), (squeeze (x :: xs)).head? = some x
  | [], _ => rfl
  | y :: ys, x => by
      rw [squeeze_cons_cons]
      by_cases h : (x = ' ' && y = ' ') = true
      · rw [if_pos h]
        simp only [Bool.and_eq_true, decide_eq_true_eq] at h
        rw [squeeze_head? ys y, h.1, h.2]
      · rw [if_neg h]; rfl

lemma squeeze_spacedOk : ∀ l : Text, SpacedOk (squeeze l)
  | [] => List.chain'_nil
  | [c] => List.chain'_singleton c
  | a :: b :: rest => by
      rw [squeeze_cons_cons]
      by_cases h : (a = ' ' && b = ' ') = true
      · rw [if_pos h]; exact squeeze_spacedOk (b :: rest)
      · rw [if_neg h]
        refine List.chain'_cons'.mpr ⟨?_, squeeze_spacedOk (b :: rest)⟩
        intro y hy
        rw [squeeze_head? rest b] at hy
        cases hy
        simp only [Bool.and_eq_true, decide_eq_true_eq] at h
        intro hab
        exact h ⟨hab.1, hab.2⟩

lemma squeeze_eq_self : ∀ {l : Text}, SpacedOk l → squeeze l = l
  | [], _ => rfl
  | [_], _ => rfl
  | a :: b :: rest, h => by
      have h1 := (List.chain'_cons.mp h).1
      have h2 := (List.chain'_cons.mp h).2
      rw [squeeze_cons_cons, if_neg (by simpa using h1), squeeze_eq_self h2]

lemma mem_squeeze_sub : ∀ {l : Text} {c : Char}, c ∈ squeeze l → c ∈ l
  | [], _, h => h
  | [_], _, h => h
  | a :: b :: rest, c, h => by
      rw [squeeze_cons_cons] at h
      by_cases hab : (a = ' ' && b = ' ') = true
      · rw [if_pos hab] at h
        exact List.mem_cons_of_mem a (mem_squeeze_sub h)
      · rw [if_neg hab] at h
        rcases List.mem_cons.mp h with hc | hc
        · exact hc ▸ List.mem_cons_self a _
        · exact List.mem_cons_of_mem a (mem_squeeze_sub hc)

lemma pyStrip_eq_dropTrail (l : Text) :
    pyStrip l = dropTrail (l.dropWhile isPySpace) := rfl

lemma dropWhile_dropWhile (p : Char → Bool) :
    ∀ l : Text, List.dropWhile p (List.dropWhile p l) = List.dropWhile p l
  | [] => rfl
  | c :: t => by
      rw [List.dropWhile_cons]
      by_cases h : p c = true
      · rw [if_pos h]; exact dropWhile_dropWhile p t
      · rw [if_neg h, List.dropWhile_cons, if_neg h]

lemma dropWhile_head_false (p : Char → Bool) :
    ∀ {l : Text} {c : Char} {t : Text}, List.dropWhile p l = c :: t → p c = false
  | [], _, _ => by intro h; cases h
  | x :: xs, c, t => by
      intro h
      rw [List.dropWhile_cons] at h
      by_cases hx : p x = true
      · rw [if_pos hx] at h; exact dropWhile_head_false p h
      · rw [if_neg hx] at h
        cases h
        simpa using hx

lemma pyStrip_cons_ws (c : Char) (l : Text) (h : isPySpace c = true) :
    pyStrip (c :: l) = pyStrip l := by
  rw [pyStrip_eq_dropTrail, pyStrip_eq_dropTrail, List.dropWhile_cons, if_pos h]

lemma dropTrail_append_ws (l : Text) (c : Char) (h : isPySpace c = true) :
    dropTrail (l ++ [c]) = dropTrail l := by
  rw [dropTrail, dropTrail, List.reverse_append, List.reverse_singleton,
    List.singleton_append, List.dropWhile_cons, if_pos h]

lemma pyStrip_append_ws (l : Text) (c : Char) (h : isPySpace c = true) :
    pyStrip (l ++ [c]) = pyStrip l := by
  rw [pyStrip_eq_dropTrail, pyStrip_eq_dropTrail, List.dropWhile_append]
  by_cases he : (List.dropWhile isPySpace l).isEmpty = true
  · rw [if_pos he]
    have : List.dropWhile isPySpace [c] = ([] : Text) := by
      rw [List.dropWhile_cons, if_pos h]; rfl
    rw [this]
    rw [List.isEmpty_iff] at he
    rw [he]
  · rw [if_neg he]
    exact dropTrail_append_ws _ c h

lemma dropTrail_decomp (l : Text) :
    l = dropTrail l ++ (l.reverse.takeWhile isPySpace).reverse := by
  conv_lhs => rw [← List.reverse_reverse l,
    ← List.takeWhile_append_dropWhile (p := isPySpace) (l := l.reverse)]
  rw [List.reverse_append]
  rfl

lemma dropTrail_dropTrail (l : Text) : dropTrail (dropTrail l) = dropTrail l := by
  rw [dropTrail, dropTrail, List.reverse_reverse, dropWhile_dropWhile]

lemma dropWhile_dropTrail (l : Text) :
    (dropTrail (l.dropWhile isPySpace)).dropWhile isPySpace =
      dropTrail (l.dropWhile isPySpace) := by
  cases hT : dropTrail (l.dropWhile isPySpace) with
  | nil => rfl
  | cons c t =>
      have hdec := dropTrail_decomp (l.dropWhile isPySpace)
      rw [hT, List.cons_append] at hdec
      have hc := dropWhile_head_false isPySpace hdec
      rw [List.dropWhile_cons, if_neg (by simp [hc])]

lemma pyStrip_idem (l : Text) : pyStrip (pyStrip l) = pyStrip l := by
  rw [pyStrip_eq_dropTrail l, pyStrip_eq_dropTrail, dropWhile_dropTrail,
    dropTrail_dropTrail]

lemma spacedOk_of_dropWhile {l : Text} (h : SpacedOk l) (p : Char → Bool) :
    SpacedOk (l.dropWhile p) := by
  have := List.takeWhile_append_dropWhile (p := p) (l := l)
  rw [← this] at h
  exact h.right_of_append

lemma spacedOk_reverse {l : Text} (h : SpacedOk l) : SpacedOk l.reverse := by
  rw [SpacedOk, List.chain'_reverse]
  exact List.Chain'.imp (fun a b hab h' => hab ⟨h'.2, h'.1⟩) h

lemma spacedOk_pyStrip {l : Text} (h : SpacedOk l) : SpacedOk (pyStrip l) := by
  rw [pyStrip]
  exact spacedOk_reverse (spacedOk_of_dropWhile (spacedOk_reverse (spacedOk_of_dropWhile h _)) _)

lemma mem_dropWhile_sub {p : Char → Bool} {l : Text} {c : Char}
    (h : c ∈ List.dropWhile p l) : c ∈ l := by
  have := List.takeWhile_append_dropWhile (p := p) (l := l)
  rw [← this]
  exact List.mem_append_right _ h

lemma mem_pyStrip_sub {l : Text} {c : Char} (h : c ∈ pyStrip l) : c ∈ l := by
  rw [pyStrip] at h
  rw [List.mem_reverse] at h
  have h2 := mem_dropWhile_sub h
  rw [List.mem_reverse] at h2
  exact mem_dropWhile_sub h2

lemma normalizeChars_idem (l : Text) :
    normalizeChars (normalizeChars l) = normalizeChars l := by
  have hmem : ∀ c ∈ normalizeChars l, charNorm c = c := by
    intro c hc
    rw [normalizeChars_eq_map] at hc
    have hc2 := mem_squeeze_sub (mem_pyStrip_sub hc)
    obtain ⟨x, _, rfl⟩ := List.mem_map.mp hc2
    exact charNorm_idem x
  have hmap : (normalizeChars l).map charNorm = normalizeChars l := by
    rw [List.map_congr_left hmem]
    exact List.map_id' _
  have hsp : SpacedOk (normalizeChars l) := by
    rw [normalizeChars_eq_map]
    exact spacedOk_pyStrip (squeeze_spacedOk _)
  calc normalizeChars (normalizeChars l)
      = pyStrip (squeeze ((normalizeChars l).map charNorm)) :=
        normalizeChars_eq_map _
    _ = pyStrip (squeeze (normalizeChars l)) := by rw [hmap]
    _ = pyStrip (normalizeChars l) := by rw [squeeze_eq_self hsp]
    _ = normalizeChars l := by
        rw [normalizeChars_eq_map, pyStrip_idem]

lemma norm_map_eq (a b : Text) {c d : Char} (h : charNorm c = charNorm d) :
    normalizeChars (a ++ c :: b) = normalizeChars (a ++ d :: b) := by
  rw [normalizeChars_eq_map, normalizeChars_eq_map, List.map_append,
    List.map_append, List.map_cons, List.map_cons, h]

lemma squeeze_dup : ∀ (A B : Text),
    squeeze (A ++ ' ' :: ' ' :: B) = squeeze (A ++ ' ' :: B)
  | [], B => by
      rw [List.nil_append, List.nil_append, squeeze_cons_cons, if_pos (by simp)]
  | [a], B => by
      have hrec := squeeze_dup [] B
      rw [List.nil_append, List.nil_append] at hrec
      simp only [List.cons_append, List.nil_append]
      rw [squeeze_cons_cons a ' ' (' ' :: B), squeeze_cons_cons a ' ' B, hrec]
  | a :: a' :: A, B => by
      have hrec := squeeze_dup (a' :: A) B
      simp only [List.cons_append] at hrec
      simp only [List.cons_append]
      rw [squeeze_cons_cons a a' (A ++ ' ' :: ' ' :: B),
        squeeze_cons_cons a a' (A ++ ' ' :: B), hrec]

lemma strip_squeeze_cons_sp : ∀ M : Text,
    pyStrip (squeeze (' ' :: M)) = pyStrip (squeeze M)
  | [] => by decide
  | m :: M' => by
      rw [squeeze_cons_cons]
      by_cases h : m = ' '
      · subst h; rw [if_pos (by simp)]
      · rw [if_neg (by simp [h])]
        exact pyStrip_cons_ws _ _ (by decide)

lemma squeeze_app_sp : ∀ M : Text,
    squeeze (M ++ [' ']) =
      if M.getLast? = some ' ' then squeeze M else squeeze M ++ [' ']
  | [] => by simp [squeeze]
  | [c] => by
      simp only [List.cons_append, List.nil_append]
      rw [squeeze_cons_cons]
      by_cases h : c = ' '
      · subst h; simp [squeeze]
      · simp [squeeze, h]
  | a :: b :: M => by
      have hrec := squeeze_app_sp (b :: M)
      simp only [List.cons_append] at hrec ⊢
      rw [squeeze_cons_cons, squeeze_cons_cons, hrec, List.getLast?_cons_cons]
      by_cases h : (b :: M).getLast? = some ' '
      · simp only [if_pos h]
      · simp only [if_neg h]
        by_cases hab : (a = ' ' && b = ' ') = true
        · simp only [if_pos hab]
        · simp only [if_neg hab, List.cons_append]

lemma strip_squeeze_app_sp (M : Text) :
    pyStrip (squeeze (M ++ [' '])) = pyStrip (squeeze M) := by
  rw [squeeze_app_sp]
  by_cases h : M.getLast? = some ' '
  · rw [if_pos h]
  · rw [if_neg h]
    exact pyStrip_append_ws _ _ (by decide)

lemma normEquiv_norm_eq {s t : Text} (h : NormEquiv s t) :
    normalizeChars s = normalizeChars t := by
  induction h with
  | refl l => rfl
  | symm _ ih => exact ih.symm
  | trans _ _ ih1 ih2 => exact ih1.trans ih2
  | aposR a b => exact norm_map_eq a b (by decide)
  | aposL a b => exact norm_map_eq a b (by decide)
  | nbspace a b => exact norm_map_eq a b (by decide)
  | wsChar a b w u hw hu =>
      exact norm_map_eq a b (by rw [charNorm_of_ws hw, charNorm_of_ws hu])
  | wsRun a b w u hw hu =>
      rw [normalizeChars_eq_map, normalizeChars_eq_map]
      simp only [List.map_append, List.map_cons]
      rw [charNorm_of_ws hw, charNorm_of_ws hu]
      exact congrArg pyStrip (squeeze_dup _ _)
  | wsLead l w hw =>
      rw [normalizeChars_eq_map, normalizeChars_eq_map]
      simp only [List.map_cons]
      rw [charNorm_of_ws hw]
      exact strip_squeeze_cons_sp _
  | wsTrail l w hw =>
      rw [normalizeChars_eq_map, normalizeChars_eq_map]
      simp only [List.map_append, List.map_cons, List.map_nil]
      rw [charNorm_of_ws hw]
      exact strip_squeeze_app_sp _

/-- C7: normalize_source_name is idempotent, and two raw strings that
differ only in apostrophe glyph or in whitespace identity/width (including
run length and leading/trailing whitespace) — captured by the `NormEquiv`
closure — normalize to the same result. -/
theorem claim_C7 (s t : Text) (h : NormEquiv s t) :
    normalize_source_name (normalize_source_name (some s)) =
      normalize_source_name (some s) ∧
    normalize_source_name (some s) = normalize_source_name (some t) :=
  ⟨congrArg some (normalizeChars_idem s), congrArg some (normEquiv_norm_eq h)⟩

/-- Witness for C7 at the raw strings a’␣␣b and a'␣b. -/
theorem claim_C7_witness :
    normalize_source_name
        (normalize_source_name (some ['a', '’', ' ', ' ', 'b'])) =
      normalize_source_name (some ['a', '’', ' ', ' ', 'b']) ∧
    normalize_source_name (some ['a', '’', ' ', ' ', 'b']) =
      normalize_source_name (some ['a', '\'', ' ', 'b']) :=
  claim_C7 _ _
    (NormEquiv.trans (NormEquiv.aposR ['a'] [' ', ' ', 'b'])
      (NormEquiv.wsRun ['a', '\''] ['b'] ' ' ' ' (by decide) (by decide)))

lemma isNumberText_ne_empty {l : Text} (h : isNumberText l = true) :
    l.isEmpty = false := by
  cases l with
  | nil => exact absurd h (by decide)
  | cons c t => rfl

/-- C9: each ECG CSV row is classified structurally by the row loop of
`parse_ecg_csv`: a row with exactly one field whose stripped content
matches the number regex appends that numeric value to the samples; a row
with two or more fields stores field 1 under field 0 in the metadata map,
ignoring every further field; a row with exactly one non-numeric field
changes nothing; and the whole-file parse is the fold of this step over the
rows in order. -/
theorem claim_C9 (st : EcgParseState) (v u k w : Text) (extra : List Text)
    (hv : isNumberText (pyStrip v) = true)
    (hu : isNumberText (pyStrip u) = false) :
    ecgRowStep st [v] = ⟨st.metadata, st.samples ++ [numberVal (pyStrip v)]⟩ ∧
    ecgRowStep st (k :: w :: extra) =
      ⟨mdUpdate st.metadata (pyStrip k) (pyStrip w), st.samples⟩ ∧
    ecgRowStep st [u] = st ∧
    ∀ rows : List (List Text),
      parse_ecg_csv rows = rows.foldl ecgRowStep ⟨fun _ => none, []⟩ := by
  refine ⟨?_, rfl, ?_, fun rows => rfl⟩
  · have he := isNumberText_ne_empty hv
    simp [ecgRowStep, he, hv]
  · by_cases he : (pyStrip u).isEmpty = true
    · simp [ecgRowStep, he]
    · simp [ecgRowStep, he, hu]

/-- Witness for C9: the sample row 1.5, and the discarded row a. -/
theorem claim_C9_witness :
    ecgRowStep ⟨fun _ => none, []⟩ [['1', '.', '5']] =
      ⟨fun _ => none, [numberVal ['1', '.', '5']]⟩ ∧
    ecgRowStep ⟨fun _ => none, []⟩ [['a']] = ⟨fun _ => none, []⟩ := by
  have h := claim_C9 ⟨fun _ => none, []⟩ ['1', '.', '5'] ['a'] ['K'] ['W'] []
    (by decide) (by decide)
  exact ⟨h.1, h.2.2.1⟩

lemma routeDist_fold_some (points : List RoutePoint) :
    ∀ (acc : ℝ) (lp : ℝ × ℝ),
      (points.foldl routeDistStep (acc, some lp)).1 =
        acc + consecHavSum (lp :: validPoints points) := by
  induction points with
  | nil => intro acc lp; simp [consecHavSum, validPoints]
  | cons p rest ih =>
      intro acc lp
      obtain ⟨plat, plon, pele, ptime⟩ := p
      cases plat with
      | none =>
          rw [List.foldl_cons]
          show (rest.foldl routeDistStep (acc, some lp)).1 = _
          rw [ih acc lp]
          simp [validPoints]
      | some la =>
          cases plon with
          | none =>
              rw [List.foldl_cons]
              show (rest.foldl routeDistStep (acc, some lp)).1 = _
              rw [ih acc lp]
              simp [validPoints]
          | some lo =>
              rw [List.foldl_cons]
              show (rest.foldl routeDistStep
                (acc + haversine_km la lo lp.1 lp.2, some (la, lo))).1 = _
              rw [ih _ (la, lo)]
              simp only [validPoints, List.filterMap_cons]
              show acc + haversine_km la lo lp.1 lp.2 +
                  consecHavSum ((la, lo) :: validPoints rest) =
                acc + consecHavSum (lp :: (la, lo) :: validPoints rest)
              rw [consecHavSum]
              ring

lemma routeDist_fold_none (points : List RoutePoint) :
    ∀ acc : ℝ,
      (points.foldl routeDistStep (acc, none)).1 =
        acc + consecHavSum (validPoints points) := by
  induction points with
  | nil => intro acc; simp [consecHavSum, validPoints]
  | cons p rest ih =>
      intro acc
      obtain ⟨plat, plon, pele, ptime⟩ := p
      cases plat with
      | none =>
          rw [List.foldl_cons]
          show (rest.foldl routeDistStep (acc, none)).1 = _
          rw [ih acc]
          simp [validPoints]
      | some la =>
          cases plon with
          | none =>
              rw [List.foldl_cons]
              show (rest.foldl routeDistStep (acc, none)).1 = _
              rw [ih acc]
              simp [validPoints]
          | some lo =>
              rw [List.foldl_cons]
              show (rest.foldl routeDistStep (acc, some (la, lo))).1 = _
              rw [routeDist_fold_some rest acc (la, lo)]
              simp [validPoints]

lemma routeDistance_eq_consec (points : List RoutePoint) :
    routeDistance points = consecHavSum (validPoints points) := by
  rw [routeDistance, routeDist_fold_none, zero_add]

lemma haversine_nonneg (lat1 lon1 lat2 lon2 : ℝ) :
    0 ≤ haversine_km lat1 lon1 lat2 lon2 := by
  unfold haversine_km
  exact mul_nonneg (by norm_num)
    (Real.arcsin_nonneg.mpr (Real.sqrt_nonneg _))

lemma hav_zero_ninety_pos : 0 < haversine_km 0 90 0 0 := by
  unfold haversine_km
  apply mul_pos (by norm_num)
  apply Real.arcsin_pos.mpr
  apply Real.sqrt_pos.mpr
  have e1 : radians ((0 : ℝ) - 0) / 2 = 0 := by unfold radians; ring
  have e2 : radians ((0 : ℝ) - 90) / 2 = -(Real.pi / 4) := by
    unfold radians; ring
  rw [e1, e2, Real.sin_zero]
  have hsin : Real.sin (-(Real.pi / 4)) ^ 2 = Real.sin (Real.pi / 4) ^ 2 := by
    rw [Real.sin_neg]; ring
  rw [hsin]
  have e3 : radians (0 : ℝ) = 0 := by unfold radians; ring
  rw [e3, Real.cos_zero]
  have hpos : 0 < Real.sin (Real.pi / 4) :=
    Real.sin_pos_of_pos_of_lt_pi (by positivity) (by linarith [Real.pi_pos])
  nlinarith [pow_pos hpos 2]

/-- Counterexample to C1 as stated: on `gapPoints` no consecutive pair in
file order has both members geolocated, so the claimed distance is 0, but
the loop bridges the gap and accumulates the positive haversine distance
between the two valid points. -/
theorem claim_C1_counterexample :
    routeDistance gapPoints ≠ specFileOrderDistance gapPoints ∧
    specFileOrderDistance gapPoints = 0 := by
  have hspec : specFileOrderDistance gapPoints = 0 := by
    have h0 : specFileOrderDistance gapPoints = 0 + (0 + 0) := rfl
    rw [h0]; norm_num
  have hcode : routeDistance gapPoints = haversine_km 0 90 0 0 := by
    show (List.foldl routeDistStep (0, none)
      [(⟨some 0, some 0, none, none⟩ : RoutePoint),
        ⟨none, some 1, none, none⟩, ⟨some 0, some 90, none, none⟩]).1 = _
    rw [List.foldl_cons, List.foldl_cons, List.foldl_cons, List.foldl_nil]
    show ((0 : ℝ) + haversine_km 0 90 0 0, some ((0 : ℝ), (90 : ℝ))).1 = _
    rw [zero_add]
  refine ⟨?_, hspec⟩
  rw [hcode, hspec]
  exact ne_of_gt hav_zero_ninety_pos

/-- C1 as amended: the stored distance is the haversine sum over
consecutive pairs of the *subsequence* of points with both coordinates
non-null — a point missing a coordinate contributes nothing and does not
reset the accumulation, but the gap *is* bridged: a term is added between
the valid points on either side of it. -/
theorem claim_C1 (points : List RoutePoint) :
    routeDistance points = consecHavSum (validPoints points) :=
  routeDistance_eq_consec points

/-- C8: route distance is 0 when at most one point is geolocated, and
appending a trailing point with valid coordinates never decreases it. -/
theorem claim_C8 :
    (∀ points : List RoutePoint,
      (validPoints points).length ≤ 1 → routeDistance points = 0) ∧
    (∀ (points : List RoutePoint) (p : RoutePoint),
      p.lat.isSome = true → p.lon.isSome = true →
        routeDistance points ≤ routeDistance (points ++ [p])) := by
  constructor
  · intro points h
    rw [routeDistance_eq_consec]
    cases hv : validPoints points with
    | nil => rfl
    | cons x xs =>
        cases xs with
        | nil => rfl
        | cons y ys => rw [hv] at h; simp at h
  · intro points p _ _
    rw [routeDistance, routeDistance, List.foldl_append, List.foldl_cons,
      List.foldl_nil]
    obtain ⟨plat, plon, pele, ptime⟩ := p
    cases plat with
    | none => exact le_refl _
    | some la =>
        cases plon with
        | none => exact le_refl _
        | some lo =>
            cases hst : (points.foldl routeDistStep (0, none)).2 with
            | none =>
                show _ ≤ (routeDistStep _ _).1
                rw [routeDistStep]
                rw [hst]
            | some lp =>
                show _ ≤ (routeDistStep _ _).1
                rw [routeDistStep]
                rw [hst]
                exact le_add_of_nonneg_right (haversine_nonneg _ _ _ _)

/-- Witness for C8: the empty route has distance 0, and appending the
geolocated point (0, 90) to the one-point route at (0, 0) does not
decrease the distance. -/
theorem claim_C8_witness :
    routeDistance [] = 0 ∧
    routeDistance [⟨some 0, some 0, none, none⟩] ≤
      routeDistance ([⟨some 0, some 0, none, none⟩] ++
        [⟨some 0, some 90, none, none⟩]) :=
  ⟨claim_C8.1 [] (by simp [validPoints]),
    claim_C8.2 [⟨some 0, some 0, none, none⟩] ⟨some 0, some 90, none, none⟩
      rfl rfl⟩

lemma ingest_fold_inv (bs : Nat) :
    ∀ (elems : List EntityKind) (st : IngestState),
      (∀ k, st.tables k ++ st.buffers k = List.range' 1 (st.counters k)) →
      ∀ k,
        (elems.foldl (ingestStep bs) st).tables k ++
            (elems.foldl (ingestStep bs) st).buffers k =
          List.range' 1 ((elems.foldl (ingestStep bs) st).counters k) ∧
        (elems.foldl (ingestStep bs) st).counters k =
          st.counters k + elems.countP (fun j => j = k)
  | [], st, hst, k => by
      simp only [List.foldl_nil, List.countP_nil]
      exact ⟨hst k, by omega⟩
  | e :: rest, st, hst, k => by
      rw [List.foldl_cons]
      have hbuf : ∀ j, (bufferRow st e).tables j ++ (bufferRow st e).buffers j =
          List.range' 1 ((bufferRow st e).counters j) := by
        intro j
        simp only [bufferRow]
        by_cases hj : j = e
        · rw [if_pos hj, if_pos hj, hj, List.range'_concat,
            ← List.append_assoc, hst e]
          have he2 : 1 + 1 * st.counters e = st.counters e + 1 := by omega
          rw [he2]
        · rw [if_neg hj, if_neg hj]
          exact hst j
      have hstep : ∀ j, (ingestStep bs st e).tables j ++
          (ingestStep bs st e).buffers j =
            List.range' 1 ((ingestStep bs st e).counters j) := by
        intro j
        rw [ingestStep]
        by_cases hc : bs ≤ ((bufferRow st e).buffers EntityKind.record).length
        · rw [if_pos hc]
          show ((bufferRow st e).tables j ++ (bufferRow st e).buffers j) ++ [] =
            List.range' 1 ((bufferRow st e).counters j)
          rw [List.append_nil]
          exact hbuf j
        · rw [if_neg hc]
          exact hbuf j
      have hcnt : (ingestStep bs st e).counters =
          (bufferRow st e).counters := by
        rw [ingestStep]
        by_cases hc : bs ≤ ((bufferRow st e).buffers EntityKind.record).length
        · rw [if_pos hc]
        · rw [if_neg hc]
      have ih := ingest_fold_inv bs rest (ingestStep bs st e) hstep k
      refine ⟨ih.1, ?_⟩
      rw [ih.2, hcnt, List.countP_cons]
      simp only [bufferRow, decide_eq_true_eq]
      by_cases hk : k = e
      · rw [if_pos hk, if_pos (hk ▸ rfl), hk]
        omega
      · rw [if_neg hk, if_neg (fun he => hk he.symm)]
        omega

lemma ingestStep_record_lt (bs : Nat) (hbs : 1 ≤ bs) (st : IngestState)
    (k : EntityKind) :
    ((ingestStep bs st k).buffers EntityKind.record).length < bs := by
  rw [ingestStep]
  by_cases hc : bs ≤ ((bufferRow st k).buffers EntityKind.record).length
  · rw [if_pos hc]
    show ([] : List Nat).length < bs
    simpa using hbs
  · rw [if_neg hc]
    omega

lemma ingestRun_record_lt (bs : Nat) (hbs : 1 ≤ bs) :
    ∀ (elems : List EntityKind) (st : IngestState),
      (st.buffers EntityKind.record).length < bs →
      ((elems.foldl (ingestStep bs) st).buffers EntityKind.record).length < bs
  | [], _, hst => hst
  | e :: rest, st, _ => by
      rw [List.foldl_cons]
      exact ingestRun_record_lt bs hbs rest (ingestStep bs st e)
        (ingestStep_record_lt bs hbs st e)

/-- C5 as amended: a mid-stream flush is triggered exactly when the
records buffer reaches the batch-size threshold after an element is
handled — the code checks only rows_by_table["records"] — so the records
buffer always stays below the threshold, while buffers of the other kinds
are drained only by a records-triggered flush or the final unconditional
flush. -/
theorem claim_C5 (elems : List EntityKind) (bs : Nat) (hbs : 1 ≤ bs) :
    ((ingestRun elems bs).buffers EntityKind.record).length < bs ∧
    ∀ (st : IngestState) (k : EntityKind),
      ((ingestStep bs st k).midFlushes = st.midFlushes + 1 ↔
        bs ≤ ((bufferRow st k).buffers EntityKind.record).length) := by
  constructor
  · exact ingestRun_record_lt bs hbs elems initIngest (by simpa using hbs)
  · intro st k
    rw [ingestStep]
    by_cases hc : bs ≤ ((bufferRow st k).buffers EntityKind.record).length
    · rw [if_pos hc]
      exact iff_of_true rfl hc
    · rw [if_neg hc]
      constructor
      · intro h
        exact absurd h (Nat.succ_ne_self st.midFlushes).symm
      · intro h
        exact absurd h hc

/-- Witness for C5 as amended, at a single-record stream with batch size
1. -/
theorem claim_C5_witness :
    ((ingestRun [EntityKind.record] 1).buffers EntityKind.record).length < 1 :=
  (claim_C5 [EntityKind.record] 1 (by decide)).1

/-- Counterexample to C5 as stated: with batch size 1 and a stream of two
Workout elements, the workouts buffer reaches and then exceeds the
threshold (length 2 ≥ 1) yet no flush has been performed — the claimed
behaviour would have cleared the buffer as soon as it reached one row. -/
theorem claim_C5_counterexample :
    ((ingestRun [EntityKind.workout, EntityKind.workout] 1).buffers
        EntityKind.workout).length = 2 ∧
    (ingestRun [EntityKind.workout, EntityKind.workout] 1).midFlushes = 0 ∧
    1 ≤ 2 := by
  refine ⟨?_, ?_, by omega⟩ <;> rfl

/-- Counterexample to C2 as stated: re-running the primary ingestion over
a store whose record table already holds a row with id 1 does not continue
from max(existing id) + 1 = 2 — the counter-based id assignment restarts
at 1, and the strict INSERT of the flushed batch collides with the stored
primary key and fails. -/
theorem claim_C2_counterexample :
    (ingestFinal [EntityKind.record] 10).tables EntityKind.record = [1] ∧
    insertStrict [1]
        ((ingestFinal [EntityKind.record] 10).tables EntityKind.record) =
      Except.error () ∧
    nextIdOf [1] = 2 := by
  refine ⟨rfl, rfl, rfl⟩

lemma routeFileStep_nongpx (e : List Text) (s : Bool) (d : Text)
    (st : RouteDB × Nat × Nat) (f : Text × List RoutePoint)
    (h : isGpxName f.1 = false) : routeFileStep e s d st f = st := by
  rw [routeFileStep, if_pos h]

lemma ecgFileStep_noncsv (e : List Text) (s : Bool) (d : Text)
    (st : EcgDB × Nat × Nat) (f : Text × List (List Text))
    (h : isCsvName f.1 = false) : ecgFileStep e s d st f = st := by
  rw [ecgFileStep, if_pos h]

/-- C10: a directory entry whose name does not end case-insensitively in
.gpx (for routes) or .csv (for ECGs) is skipped entirely, whatever its
content: removing it from the listing changes neither the resulting store
nor the returned inserted count. -/
theorem claim_C10 :
    (∀ (db : RouteDB) (dir : Text)
      (pre post : List (Text × List RoutePoint)) (name : Text)
      (content : List RoutePoint) (skip : Bool),
      isGpxName name = false →
      import_workout_routes db dir (pre ++ (name, content) :: post) skip =
        import_workout_routes db dir (pre ++ post) skip) ∧
    (∀ (db : EcgDB) (dir : Text)
      (pre post : List (Text × List (List Text))) (name : Text)
      (content : List (List Text)) (skip : Bool),
      isCsvName name = false →
      import_ecg db dir (pre ++ (name, content) :: post) skip =
        import_ecg db dir (pre ++ post) skip) := by
  constructor
  · intro db dir pre post name content skip h
    rw [import_workout_routes, import_workout_routes]
    rw [List.foldl_append, List.foldl_append, List.foldl_cons,
      routeFileStep_nongpx _ _ _ _ _ h]
  · intro db dir pre post name content skip h
    rw [import_ecg, import_ecg]
    rw [List.foldl_append, List.foldl_append, List.foldl_cons,
      ecgFileStep_noncsv _ _ _ _ _ h]

/-- Witness for C10: a file named x.txt is invisible to both importers. -/
theorem claim_C10_witness :
    import_workout_routes ⟨[], []⟩ ['d']
        [(['x', '.', 't', 'x', 't'], [])] true =
      import_workout_routes ⟨[], []⟩ ['d'] [] true ∧
    import_ecg ⟨[], []⟩ ['d'] [(['x', '.', 't', 'x', 't'], [])] true =
      import_ecg ⟨[], []⟩ ['d'] [] true :=
  ⟨claim_C10.1 ⟨[], []⟩ ['d'] [] [] ['x', '.', 't', 'x', 't'] [] true
      (by decide),
    claim_C10.2 ⟨[], []⟩ ['d'] [] [] ['x', '.', 't', 'x', 't'] [] true
      (by decide)⟩

lemma insertRouteRow_paths_mono {db : RouteDB} {row : RouteRow} {p : Text}
    (h : p ∈ routePaths db) : p ∈ routePaths (insertRouteRow db row) := by
  rw [insertRouteRow]
  by_cases hc : row.file_path ∈ routePaths db ∨ row.id ∈ routeIds db
  · rw [if_pos hc]; exact h
  · rw [if_neg hc]
    show p ∈ (db.routes ++ [row]).map RouteRow.file_path
    rw [List.map_append]
    exact List.mem_append_left _ h

lemma routeFileStep_paths_mono (e : List Text) (s : Bool) (d : Text)
    (st : RouteDB × Nat × Nat) (f : Text × List RoutePoint) {p : Text}
    (h : p ∈ routePaths st.1) : p ∈ routePaths (routeFileStep e s d st f).1 := by
  rw [routeFileStep]
  by_cases h1 : isGpxName f.1 = false
  · rw [if_pos h1]; exact h
  · rw [if_neg h1]
    by_cases h2 : s = true ∧ joinPath d f.1 ∈ e
    · rw [if_pos h2]; exact h
    · rw [if_neg h2]
      by_cases h3 : f.2.isEmpty = true
      · rw [if_pos h3]; exact h
      · rw [if_neg h3]
        exact insertRouteRow_paths_mono h

lemma routeRun_paths_mono (e : List Text) (s : Bool) (d : Text) :
    ∀ (files : List (Text × List RoutePoint)) (st : RouteDB × Nat × Nat)
      {p : Text}, p ∈ routePaths st.1 →
      p ∈ routePaths (files.foldl (routeFileStep e s d) st).1
  | [], _, _, h => h
  | f :: rest, st, p, h => by
      rw [List.foldl_cons]
      exact routeRun_paths_mono e s d rest _
        (routeFileStep_paths_mono e s d st f h)

lemma routeFileStep_inv (e : List Text) (s : Bool) (d : Text)
    (st : RouteDB × Nat × Nat) (f : Text × List RoutePoint)
    (h : ∀ i ∈ routeIds st.1, i < st.2.1) :
    ∀ i ∈ routeIds (routeFileStep e s d st f).1,
      i < (routeFileStep e s d st f).2.1 := by
  rw [routeFileStep]
  by_cases h1 : isGpxName f.1 = false
  · rw [if_pos h1]; exact h
  · rw [if_neg h1]
    by_cases h2 : s = true ∧ joinPath d f.1 ∈ e
    · rw [if_pos h2]; exact h
    · rw [if_neg h2]
      by_cases h3 : f.2.isEmpty = true
      · rw [if_pos h3]; exact h
      · rw [if_neg h3]
        intro i hi
        show i < st.2.1 + 1
        rw [insertRouteRow] at hi
        by_cases hc : (mkRouteRow st.2.1 (joinPath d f.1) f.2).file_path ∈
            routePaths ⟨st.1.routes, st.1.points ++ mkPointRows st.2.1 f.2⟩ ∨
            (mkRouteRow st.2.1 (joinPath d f.1) f.2).id ∈
              routeIds ⟨st.1.routes, st.1.points ++ mkPointRows st.2.1 f.2⟩
        · rw [if_pos hc] at hi
          exact Nat.lt_succ_of_lt (h i hi)
        · rw [if_neg hc] at hi
          have hi2 : i ∈ (st.1.routes ++
              [mkRouteRow st.2.1 (joinPath d f.1) f.2]).map RouteRow.id := hi
          rw [List.map_append] at hi2
          rcases List.mem_append.mp hi2 with hold | hnew
          · exact Nat.lt_succ_of_lt (h i hold)
          · rcases List.mem_singleton.mp hnew with rfl
            exact Nat.lt_succ_self _

lemma le_foldr_max : ∀ (l : List Nat) (i : Nat), i ∈ l → i ≤ l.foldr max 0
  | x :: xs, i, h => by
      rcases List.mem_cons.mp h with rfl | h2
      · exact le_max_left _ _
      · exact le_trans (le_foldr_max xs i h2) (le_max_right _ _)

lemma lt_nextIdOf {l : List Nat} {i : Nat} (h : i ∈ l) : i < nextIdOf l := by
  rw [nextIdOf]
  exact Nat.lt_succ_of_le (le_foldr_max l i h)

lemma routeRun_covers (s : Bool) (d : Text) (e : List Text) :
    ∀ (files : List (Text × List RoutePoint)) (st : RouteDB × Nat × Nat),
      (∀ i ∈ routeIds st.1, i < st.2.1) →
      (∀ p ∈ e, p ∈ routePaths st.1) →
      ∀ name pts, (name, pts) ∈ files → isGpxName name = true →
        pts.isEmpty = false →
        joinPath d name ∈
          routePaths ((files.foldl (routeFileStep e s d) st)).1
  | [], _, _, _, name, pts, hmem, _, _ => absurd hmem (List.not_mem_nil _)
  | f :: rest, st, hinv, hex, name, pts, hmem, hg, hne => by
      rw [List.foldl_cons]
      rcases List.mem_cons.mp hmem with heq | htail
      · apply routeRun_paths_mono
        cases heq
        rw [routeFileStep]
        rw [if_neg (by simp [hg])]
        by_cases h2 : s = true ∧ joinPath d name ∈ e
        · rw [if_pos h2]
          exact hex _ h2.2
        · rw [if_neg h2, if_neg (by simp [hne])]
          rw [insertRouteRow]
          by_cases hc : (mkRouteRow st.2.1 (joinPath d name) pts).file_path ∈
              routePaths ⟨st.1.routes,
                st.1.points ++ mkPointRows st.2.1 pts⟩ ∨
              (mkRouteRow st.2.1 (joinPath d name) pts).id ∈
                routeIds ⟨st.1.routes, st.1.points ++ mkPointRows st.2.1 pts⟩
          · rw [if_pos hc]
            rcases hc with hp | hid
            · exact hp
            · exact absurd (hinv _ hid) (lt_irrefl st.2.1)
          · rw [if_neg hc]
            show joinPath d name ∈ (st.1.routes ++
              [mkRouteRow st.2.1 (joinPath d name) pts]).map RouteRow.file_path
            rw [List.map_append]
            apply List.mem_append_right
            exact List.mem_singleton.mpr rfl
      · exact routeRun_covers s d e rest (routeFileStep e s d st f)
          (routeFileStep_inv e s d st f hinv)
          (fun p hp => routeFileStep_paths_mono e s d st f (hex p hp))
          name pts htail hg hne

lemma routeRun_id (d : Text) (e : List Text) :
    ∀ (files : List (Text × List RoutePoint)) (st : RouteDB × Nat × Nat),
      (∀ name pts, (name, pts) ∈ files → isGpxName name = true →
        pts.isEmpty = false → joinPath d name ∈ e) →
      files.foldl (routeFileStep e true d) st = st
  | [], _, _ => rfl
  | f :: rest, st, hcov => by
      rw [List.foldl_cons]
      have hstep : routeFileStep e true d st f = st := by
        rw [routeFileStep]
        by_cases h1 : isGpxName f.1 = false
        · rw [if_pos h1]
        · rw [if_neg h1]
          by_cases h2 : true = true ∧ joinPath d f.1 ∈ e
          · rw [if_pos h2]
          · rw [if_neg h2]
            by_cases h3 : f.2.isEmpty = true
            · rw [if_pos h3]
            · exact absurd ⟨rfl, hcov f.1 f.2 (by simp) (by simpa using h1)
                (by simpa using h3)⟩ h2
      rw [hstep]
      exact routeRun_id d e rest st fun name pts hmem =>
        hcov name pts (List.mem_cons_of_mem f hmem)

lemma insertEcgRow_paths_mono {db : EcgDB} {row : EcgRow} {p : Text}
    (h : p ∈ ecgPaths db) : p ∈ ecgPaths (insertEcgRow db row) := by
  rw [insertEcgRow]
  by_cases hc : row.file_path ∈ ecgPaths db ∨ row.id ∈ ecgIds db
  · rw [if_pos hc]; exact h
  · rw [if_neg hc]
    show p ∈ (db.records ++ [row]).map EcgRow.file_path
    rw [List.map_append]
    exact List.mem_append_left _ h

lemma ecgFileStep_paths_mono (e : List Text) (s : Bool) (d : Text)
    (st : EcgDB × Nat × Nat) (f : Text × List (List Text)) {p : Text}
    (h : p ∈ ecgPaths st.1) : p ∈ ecgPaths (ecgFileStep e s d st f).1 := by
  rw [ecgFileStep]
  by_cases h1 : isCsvName f.1 = false
  · rw [if_pos h1]; exact h
  · rw [if_neg h1]
    by_cases h2 : s = true ∧ joinPath d f.1 ∈ e
    · rw [if_pos h2]; exact h
    · rw [if_neg h2]
      by_cases h3 : (parse_ecg_csv f.2).samples.isEmpty = true
      · rw [if_pos h3]; exact h
      · rw [if_neg h3]
        exact insertEcgRow_paths_mono h

lemma ecgRun_paths_mono (e : List Text) (s : Bool) (d : Text) :
    ∀ (files : List (Text × List (List Text))) (st : EcgDB × Nat × Nat)
      {p : Text}, p ∈ ecgPaths st.1 →
      p ∈ ecgPaths (files.foldl (ecgFileStep e s d) st).1
  | [], _, _, h => h
  | f :: rest, st, p, h => by
      rw [List.foldl_cons]
      exact ecgRun_paths_mono e s d rest _
        (ecgFileStep_paths_mono e s d st f h)

lemma ecgFileStep_inv (e : List Text) (s : Bool) (d : Text)
    (st : EcgDB × Nat × Nat) (f : Text × List (List Text))
    (h : ∀ i ∈ ecgIds st.1, i < st.2.1) :
    ∀ i ∈ ecgIds (ecgFileStep e s d st f).1,
      i < (ecgFileStep e s d st f).2.1 := by
  rw [ecgFileStep]
  by_cases h1 : isCsvName f.1 = false
  · rw [if_pos h1]; exact h
  · rw [if_neg h1]
    by_cases h2 : s = true ∧ joinPath d f.1 ∈ e
    · rw [if_pos h2]; exact h
    · rw [if_neg h2]
      by_cases h3 : (parse_ecg_csv f.2).samples.isEmpty = true
      · rw [if_pos h3]; exact h
      · rw [if_neg h3]
        intro i hi
        show i < st.2.1 + 1
        rw [insertEcgRow] at hi
        by_cases hc : (mkEcgRow st.2.1 (joinPath d f.1)
              (parse_ecg_csv f.2)).file_path ∈
            ecgPaths ⟨st.1.records,
              st.1.samples ++
                mkSampleRows st.2.1 (parse_ecg_csv f.2).samples⟩ ∨
            (mkEcgRow st.2.1 (joinPath d f.1) (parse_ecg_csv f.2)).id ∈
              ecgIds ⟨st.1.records,
                st.1.samples ++
                  mkSampleRows st.2.1 (parse_ecg_csv f.2).samples⟩
        · rw [if_pos hc] at hi
          exact Nat.lt_succ_of_lt (h i hi)
        · rw [if_neg hc] at hi
          have hi2 : i ∈ (st.1.records ++
              [mkEcgRow st.2.1 (joinPath d f.1)
                (parse_ecg_csv f.2)]).map EcgRow.id := hi
          rw [List.map_append] at hi2
          rcases List.mem_append.mp hi2 with hold | hnew
          · exact Nat.lt_succ_of_lt (h i hold)
          · rcases List.mem_singleton.mp hnew with rfl
            exact Nat.lt_succ_self _

lemma ecgRun_covers (s : Bool) (d : Text) (e : List Text) :
    ∀ (files : List (Text × List (List Text))) (st : EcgDB × Nat × Nat),
      (∀ i ∈ ecgIds st.1, i < st.2.1) →
      (∀ p ∈ e, p ∈ ecgPaths st.1) →
      ∀ name rows, (name, rows) ∈ files → isCsvName name = true →
        (parse_ecg_csv rows).samples.isEmpty = false →
        joinPath d name ∈ ecgPaths ((files.foldl (ecgFileStep e s d) st)).1
  | [], _, _, _, name, rows, hmem, _, _ => absurd hmem (List.not_mem_nil _)
  | f :: rest, st, hinv, hex, name, rows, hmem, hg, hne => by
      rw [List.foldl_cons]
      rcases List.mem_cons.mp hmem with heq | htail
      · apply ecgRun_paths_mono
        cases heq
        rw [ecgFileStep]
        rw [if_neg (by simp [hg])]
        by_cases h2 : s = true ∧ joinPath d name ∈ e
        · rw [if_pos h2]
          exact hex _ h2.2
        · rw [if_neg h2, if_neg (by simp [hne])]
          rw [insertEcgRow]
          by_cases hc : (mkEcgRow st.2.1 (joinPath d name)
                (parse_ecg_csv rows)).file_path ∈
              ecgPaths ⟨st.1.records,
                st.1.samples ++
                  mkSampleRows st.2.1 (parse_ecg_csv rows).samples⟩ ∨
              (mkEcgRow st.2.1 (joinPath d name) (parse_ecg_csv rows)).id ∈
                ecgIds ⟨st.1.records,
                  st.1.samples ++
                    mkSampleRows st.2.1 (parse_ecg_csv rows).samples⟩
          · rw [if_pos hc]
            rcases hc with hp | hid
            · exact hp
            · exact absurd (hinv _ hid) (lt_irrefl st.2.1)
          · rw [if_neg hc]
            show joinPath d name ∈ (st.1.records ++
              [mkEcgRow st.2.1 (joinPath d name)
                (parse_ecg_csv rows)]).map EcgRow.file_path
            rw [List.map_append]
            apply List.mem_append_right
            exact List.mem_singleton.mpr rfl
      · exact ecgRun_covers s d e rest (ecgFileStep e s d st f)
          (ecgFileStep_inv e s d st f hinv)
          (fun p hp => ecgFileStep_paths_mono e s d st f (hex p hp))
          name rows htail hg hne

lemma ecgRun_id (d : Text) (e : List Text) :
    ∀ (files : List (Text × List (List Text))) (st : EcgDB × Nat × Nat),
      (∀ name rows, (name, rows) ∈ files → isCsvName name = true →
        (parse_ecg_csv rows).samples.isEmpty = false →
          joinPath d name ∈ e) →
      files.foldl (ecgFileStep e true d) st = st
  | [], _, _ => rfl
  | f :: rest, st, hcov => by
      rw [List.foldl_cons]
      have hstep : ecgFileStep e true d st f = st := by
        rw [ecgFileStep]
        by_cases h1 : isCsvName f.1 = false
        · rw [if_pos h1]
        · rw [if_neg h1]
          by_cases h2 : true = true ∧ joinPath d f.1 ∈ e
          · rw [if_pos h2]
          · rw [if_neg h2]
            by_cases h3 : (parse_ecg_csv f.2).samples.isEmpty = true
            · rw [if_pos h3]
            · exact absurd ⟨rfl, hcov f.1 f.2 (by simp) (by simpa using h1)
                (by simpa using h3)⟩ h2
      rw [hstep]
      exact ecgRun_id d e rest st fun name rows hmem =>
        hcov name rows (List.mem_cons_of_mem f hmem)

lemma import_routes_eq (db : RouteDB) (dir : Text)
    (files : List (Text × List RoutePoint)) (skip : Bool) :
    import_workout_routes db dir files skip =
      ((files.foldl (routeFileStep (routePaths db) skip dir)
          (db, nextIdOf (routeIds db), 0)).1,
        (files.foldl (routeFileStep (routePaths db) skip dir)
          (db, nextIdOf (routeIds db), 0)).2.2) := rfl

lemma import_ecg_eq (db : EcgDB) (dir : Text)
    (files : List (Text × List (List Text))) (skip : Bool) :
    import_ecg db dir files skip =
      ((files.foldl (ecgFileStep (ecgPaths db) skip dir)
          (db, nextIdOf (ecgIds db), 0)).1,
        (files.foldl (ecgFileStep (ecgPaths db) skip dir)
          (db, nextIdOf (ecgIds db), 0)).2.2) := rfl

/-- C4: with skip-existing enabled, a second post-process run over the
same directory listing inserts nothing — zero new rows in the route,
route-point, ECG and ECG-sample tables and a zero returned count — and a
duplicate-path insert is ignored, retaining the first-ingested row
unmodified. -/
theorem claim_C4 :
    (∀ (db : RouteDB) (dir : Text) (files : List (Text × List RoutePoint))
      (skip : Bool),
      import_workout_routes (import_workout_routes db dir files skip).1
          dir files true =
        ((import_workout_routes db dir files skip).1, 0)) ∧
    (∀ (db : EcgDB) (dir : Text) (files : List (Text × List (List Text)))
      (skip : Bool),
      import_ecg (import_ecg db dir files skip).1 dir files true =
        ((import_ecg db dir files skip).1, 0)) ∧
    (∀ (db : RouteDB) (row : RouteRow),
      row.file_path ∈ routePaths db → insertRouteRow db row = db) ∧
    (∀ (db : EcgDB) (row : EcgRow),
      row.file_path ∈ ecgPaths db → insertEcgRow db row = db) := by
  refine ⟨?_, ?_, ?_, ?_⟩
  · intro db dir files skip
    rw [import_routes_eq, import_routes_eq]
    have hcov := fun name pts hmem hg hne =>
      routeRun_covers skip dir (routePaths db) files
        (db, nextIdOf (routeIds db), 0) (fun i hi => lt_nextIdOf hi)
        (fun _ hp => hp) name pts hmem hg hne
    rw [routeRun_id dir _ files _ hcov]
  · intro db dir files skip
    rw [import_ecg_eq, import_ecg_eq]
    have hcov := fun name rows hmem hg hne =>
      ecgRun_covers skip dir (ecgPaths db) files
        (db, nextIdOf (ecgIds db), 0) (fun i hi => lt_nextIdOf hi)
        (fun _ hp => hp) name rows hmem hg hne
    rw [ecgRun_id dir _ files _ hcov]
  · intro db row h
    rw [insertRouteRow, if_pos (Or.inl h)]
  · intro db row h
    rw [insertEcgRow, if_pos (Or.inl h)]

/-- Witness for C4: a duplicate-path route insert and a duplicate-path ECG
insert are both ignored, keeping the stored row. -/
theorem claim_C4_witness :
    insertRouteRow
        ⟨[⟨1, ['p'], none, none, 0, 0, none, none, none, none⟩], []⟩
        ⟨2, ['p'], none, none, 0, 0, none, none, none, none⟩ =
      ⟨[⟨1, ['p'], none, none, 0, 0, none, none, none, none⟩], []⟩ ∧
    insertEcgRow
        ⟨[⟨1, ['p'], none, none, none, none, none, none, none, none,
          fun _ => none⟩], []⟩
        ⟨2, ['p'], none, none, none, none, none, none, none, none,
          fun _ => none⟩ =
      ⟨[⟨1, ['p'], none, none, none, none, none, none, none, none,
        fun _ => none⟩], []⟩ :=
  ⟨claim_C4.2.2.1 _ _ (by simp [routePaths]),
    claim_C4.2.2.2 _ _ (by simp [ecgPaths])⟩

lemma import_single_dup (db : RouteDB) (dir name : Text)
    (pts : List RoutePoint) (hg : isGpxName name = true)
    (hp : pts.isEmpty = false) (hmem : joinPath dir name ∈ routePaths db) :
    (import_workout_routes db dir [(name, pts)] false).1.routes = db.routes ∧
    (import_workout_routes db dir [(name, pts)] false).1.points =
      db.points ++ mkPointRows (nextIdOf (routeIds db)) pts ∧
    (import_workout_routes db dir [(name, pts)] false).2 = 1 := by
  rw [import_routes_eq, List.foldl_cons, List.foldl_nil, routeFileStep]
  rw [if_neg (by simp [hg]), if_neg (by simp), if_neg (by simp [hp])]
  rw [insertRouteRow]
  split
  · exact ⟨rfl, rfl, rfl⟩
  · next hcond => exact absurd (Or.inl hmem) hcond

lemma import_single_dup_ecg (db : EcgDB) (dir name : Text)
    (rows : List (List Text)) (hg : isCsvName name = true)
    (hp : (parse_ecg_csv rows).samples.isEmpty = false)
    (hmem : joinPath dir name ∈ ecgPaths db) :
    (import_ecg db dir [(name, rows)] false).1.records = db.records ∧
    (import_ecg db dir [(name, rows)] false).2 = 1 := by
  rw [import_ecg_eq, List.foldl_cons, List.foldl_nil, ecgFileStep]
  rw [if_neg (by simp [hg]), if_neg (by simp), if_neg (by simp [hp])]
  rw [insertEcgRow]
  split
  · exact ⟨rfl, rfl⟩
  · next hcond => exact absurd (Or.inl hmem) hcond

/-- C6 as amended: with skip-existing disabled, re-ingesting a file whose
path is already stored produces *no* new route/ECG row — the UNIQUE
file_path constraint makes the OR IGNORE insert drop the new row, so the
old row alone remains — while the id counter still advances, the file's
point rows are inserted under the suppressed new id, and the file is
counted in the returned total. -/
theorem claim_C6 (db : RouteDB) (dir name : Text) (pts : List RoutePoint)
    (hg : isGpxName name = true) (hp : pts.isEmpty = false)
    (hmem : joinPath dir name ∈ routePaths db) :
    (import_workout_routes db dir [(name, pts)] false).1.routes = db.routes ∧
    (import_workout_routes db dir [(name, pts)] false).1.points =
      db.points ++ mkPointRows (nextIdOf (routeIds db)) pts ∧
    (import_workout_routes db dir [(name, pts)] false).2 = 1 ∧
    ∀ (edb : EcgDB) (ename : Text) (rows : List (List Text)),
      isCsvName ename = true → (parse_ecg_csv rows).samples.isEmpty = false →
      joinPath dir ename ∈ ecgPaths edb →
      (import_ecg edb dir [(ename, rows)] false).1.records = edb.records := by
  obtain ⟨h1, h2, h3⟩ := import_single_dup db dir name pts hg hp hmem
  exact ⟨h1, h2, h3, fun edb ename rows hg2 hp2 hmem2 =>
    (import_single_dup_ecg edb dir ename rows hg2 hp2 hmem2).1⟩

/-- Witness for C6 as amended, at a store holding d/a.gpx and a re-ingest
of that path. -/
theorem claim_C6_witness :
    (import_workout_routes
        ⟨[⟨1, joinPath ['d'] ['a', '.', 'g', 'p', 'x'], none, none, 0, 0,
          none, none, none, none⟩], []⟩
        ['d'] [(['a', '.', 'g', 'p', 'x'], [⟨none, none, none, none⟩])]
        false).1.routes =
      [⟨1, joinPath ['d'] ['a', '.', 'g', 'p', 'x'], none, none, 0, 0,
        none, none, none, none⟩] :=
  (claim_C6
    ⟨[⟨1, joinPath ['d'] ['a', '.', 'g', 'p', 'x'], none, none, 0, 0,
      none, none, none, none⟩], []⟩
    ['d'] ['a', '.', 'g', 'p', 'x'] [⟨none, none, none, none⟩]
    (by decide) rfl (by simp [routePaths])).1

/-- Counterexample to C6 as stated: with skip-existing disabled and the
path d/a.gpx already stored under id 1, re-ingesting that file leaves the
route table exactly as it was — no new row with a new id appears, and no
two versions coexist — even though the file is counted as ingested. -/
theorem claim_C6_counterexample :
    (import_workout_routes
        ⟨[⟨1, joinPath ['d'] ['a', '.', 'g', 'p', 'x'], none, none, 0, 0,
          none, none, none, none⟩], []⟩
        ['d'] [(['a', '.', 'g', 'p', 'x'], [⟨some 1, some 1, none, none⟩])]
        false).1.routes =
      [⟨1, joinPath ['d'] ['a', '.', 'g', 'p', 'x'], none, none, 0, 0,
        none, none, none, none⟩] ∧
    (import_workout_routes
        ⟨[⟨1, joinPath ['d'] ['a', '.', 'g', 'p', 'x'], none, none, 0, 0,
          none, none, none, none⟩], []⟩
        ['d'] [(['a', '.', 'g', 'p', 'x'], [⟨some 1, some 1, none, none⟩])]
        false).2 = 1 := by
  obtain ⟨h1, _, h3⟩ := import_single_dup
    ⟨[⟨1, joinPath ['d'] ['a', '.', 'g', 'p', 'x'], none, none, 0, 0,
      none, none, none, none⟩], []⟩
    ['d'] ['a', '.', 'g', 'p', 'x'] [⟨some 1, some 1, none, none⟩]
    (by decide) rfl (by simp [routePaths])
  exact ⟨h1, h3⟩

lemma joinPath_inj {d n1 n2 : Text} (h : joinPath d n1 = joinPath d n2) :
    n1 = n2 := by
  rw [joinPath, joinPath] at h
  have h2 := List.append_cancel_left h
  injection h2

lemma routeRun_ids (d : Text) (e : List Text) :
    ∀ (files : List (Text × List RoutePoint)) (st : RouteDB × Nat × Nat),
      (∀ i ∈ routeIds st.1, i < st.2.1) →
      (∀ name pts, (name, pts) ∈ files →
        joinPath d name ∈ routePaths st.1 → joinPath d name ∈ e) →
      (files.map Prod.fst).Nodup →
      routeIds (files.foldl (routeFileStep e true d) st).1 =
          routeIds st.1 ++
            List.range' st.2.1
              ((files.foldl (routeFileStep e true d) st).2.1 - st.2.1) ∧
        (files.foldl (routeFileStep e true d) st).2.2 - st.2.2 =
          (files.foldl (routeFileStep e true d) st).2.1 - st.2.1 ∧
        st.2.1 ≤ (files.foldl (routeFileStep e true d) st).2.1 ∧
        st.2.2 ≤ (files.foldl (routeFileStep e true d) st).2.2
  | [], st, _, _, _ => by
      rw [List.foldl_nil]
      refine ⟨?_, by omega, le_refl _, le_refl _⟩
      rw [Nat.sub_self]
      simp
  | f :: rest, st, hinv, hfresh, hnodup => by
      rw [List.foldl_cons]
      have hnd := List.nodup_cons.mp
        (show (f.1 :: rest.map Prod.fst).Nodup from hnodup)
      by_cases h1 : isGpxName f.1 = false
      · have hstep : routeFileStep e true d st f = st :=
          routeFileStep_nongpx e true d st f h1
        rw [hstep]
        exact routeRun_ids d e rest st hinv
          (fun name pts hm => hfresh name pts (List.mem_cons_of_mem f hm))
          hnd.2
      · by_cases h2 : joinPath d f.1 ∈ e
        · have hstep : routeFileStep e true d st f = st := by
            rw [routeFileStep, if_neg h1, if_pos ⟨rfl, h2⟩]
          rw [hstep]
          exact routeRun_ids d e rest st hinv
            (fun name pts hm => hfresh name pts (List.mem_cons_of_mem f hm))
            hnd.2
        · by_cases h3 : f.2.isEmpty = true
          · have hstep : routeFileStep e true d st f = st := by
              rw [routeFileStep, if_neg h1, if_neg (by simp [h2]),
                if_pos h3]
            rw [hstep]
            exact routeRun_ids d e rest st hinv
              (fun name pts hm => hfresh name pts (List.mem_cons_of_mem f hm))
              hnd.2
          · have hnotin : joinPath d f.1 ∉ routePaths st.1 := fun hmem =>
              h2 (hfresh f.1 f.2 (by simp) hmem)
            have hins : insertRouteRow
                ⟨st.1.routes, st.1.points ++ mkPointRows st.2.1 f.2⟩
                (mkRouteRow st.2.1 (joinPath d f.1) f.2) =
                ⟨st.1.routes ++ [mkRouteRow st.2.1 (joinPath d f.1) f.2],
                  st.1.points ++ mkPointRows st.2.1 f.2⟩ := by
              rw [insertRouteRow]
              rw [if_neg ?hc]
              case hc =>
                rintro (hp | hid)
                · exact hnotin hp
                · exact lt_irrefl st.2.1 (hinv _ hid)
            have hstep : routeFileStep e true d st f =
                (⟨st.1.routes ++ [mkRouteRow st.2.1 (joinPath d f.1) f.2],
                  st.1.points ++ mkPointRows st.2.1 f.2⟩,
                  st.2.1 + 1, st.2.2 + 1) := by
              rw [routeFileStep, if_neg h1, if_neg (by simp [h2]),
                if_neg (by simp [h3]), hins]
            rw [hstep]
            have hinv' : ∀ i ∈ routeIds
                (⟨st.1.routes ++ [mkRouteRow st.2.1 (joinPath d f.1) f.2],
                  st.1.points ++ mkPointRows st.2.1 f.2⟩ : RouteDB),
                i < st.2.1 + 1 := by
              intro i hi
              have hi2 : i ∈ (st.1.routes ++
                  [mkRouteRow st.2.1 (joinPath d f.1) f.2]).map
                    RouteRow.id := hi
              rw [List.map_append] at hi2
              rcases List.mem_append.mp hi2 with hold | hnew
              · exact Nat.lt_succ_of_lt (hinv i hold)
              · rcases List.mem_singleton.mp hnew with rfl
                exact Nat.lt_succ_self _
            have hfresh' : ∀ name pts, (name, pts) ∈ rest →
                joinPath d name ∈ routePaths
                  (⟨st.1.routes ++ [mkRouteRow st.2.1 (joinPath d f.1) f.2],
                    st.1.points ++ mkPointRows st.2.1 f.2⟩ : RouteDB) →
                joinPath d name ∈ e := by
              intro name pts hm hmem
              have hmem2 : joinPath d name ∈ (st.1.routes ++
                  [mkRouteRow st.2.1 (joinPath d f.1) f.2]).map
                    RouteRow.file_path := hmem
              rw [List.map_append] at hmem2
              rcases List.mem_append.mp hmem2 with hold | hnew
              · exact hfresh name pts (List.mem_cons_of_mem f hm) hold
              · have heq := List.mem_singleton.mp hnew
                have hname : name = f.1 := joinPath_inj heq
                exact absurd (hname ▸ (List.mem_map.mpr ⟨(name, pts), hm,
                  hname ▸ rfl⟩)) hnd.1
            obtain ⟨ih1, ih2, ih3, ih4⟩ := routeRun_ids d e rest
              (⟨st.1.routes ++ [mkRouteRow st.2.1 (joinPath d f.1) f.2],
                st.1.points ++ mkPointRows st.2.1 f.2⟩,
                st.2.1 + 1, st.2.2 + 1) hinv' hfresh' hnd.2
            dsimp only at ih1 ih2 ih3 ih4
            refine ⟨?_, by omega, by omega, by omega⟩
            rw [ih1]
            have hids : routeIds
                (⟨st.1.routes ++ [mkRouteRow st.2.1 (joinPath d f.1) f.2],
                  st.1.points ++ mkPointRows st.2.1 f.2⟩ : RouteDB) =
                routeIds st.1 ++ [st.2.1] := by
              show (st.1.routes ++
                [mkRouteRow st.2.1 (joinPath d f.1) f.2]).map RouteRow.id = _
              rw [List.map_append]
              rfl
            rw [hids, List.append_assoc]
            congr 1
            have hdelta : (rest.foldl (routeFileStep e true d)
                (⟨st.1.routes ++ [mkRouteRow st.2.1 (joinPath d f.1) f.2],
                  st.1.points ++ mkPointRows st.2.1 f.2⟩,
                  st.2.1 + 1, st.2.2 + 1)).2.1 - st.2.1 =
                ((rest.foldl (routeFileStep e true d)
                  (⟨st.1.routes ++ [mkRouteRow st.2.1 (joinPath d f.1) f.2],
                    st.1.points ++ mkPointRows st.2.1 f.2⟩,
                    st.2.1 + 1, st.2.2 + 1)).2.1 - (st.2.1 + 1)) + 1 := by
              omega
            rw [hdelta, List.range'_succ]
            rfl

lemma ecgRun_ids (d : Text) (e : List Text) :
    ∀ (files : List (Text × List (List Text))) (st : EcgDB × Nat × Nat),
      (∀ i ∈ ecgIds st.1, i < st.2.1) →
      (∀ name rows, (name, rows) ∈ files →
        joinPath d name ∈ ecgPaths st.1 → joinPath d name ∈ e) →
      (files.map Prod.fst).Nodup →
      ecgIds (files.foldl (ecgFileStep e true d) st).1 =
          ecgIds st.1 ++
            List.range' st.2.1
              ((files.foldl (ecgFileStep e true d) st).2.1 - st.2.1) ∧
        (files.foldl (ecgFileStep e true d) st).2.2 - st.2.2 =
          (files.foldl (ecgFileStep e true d) st).2.1 - st.2.1 ∧
        st.2.1 ≤ (files.foldl (ecgFileStep e true d) st).2.1 ∧
        st.2.2 ≤ (files.foldl (ecgFileStep e true d) st).2.2
  | [], st, _, _, _ => by
      rw [List.foldl_nil]
      refine ⟨?_, by omega, le_refl _, le_refl _⟩
      rw [Nat.sub_self]
      simp
  | f :: rest, st, hinv, hfresh, hnodup => by
      rw [List.foldl_cons]
      have hnd := List.nodup_cons.mp
        (show (f.1 :: rest.map Prod.fst).Nodup from hnodup)
      by_cases h1 : isCsvName f.1 = false
      · have hstep : ecgFileStep e true d st f = st :=
          ecgFileStep_noncsv e true d st f h1
        rw [hstep]
        exact ecgRun_ids d e rest st hinv
          (fun name rows hm => hfresh name rows (List.mem_cons_of_mem f hm))
          hnd.2
      · by_cases h2 : joinPath d f.1 ∈ e
        · have hstep : ecgFileStep e true d st f = st := by
            rw [ecgFileStep, if_neg h1, if_pos ⟨rfl, h2⟩]
          rw [hstep]
          exact ecgRun_ids d e rest st hinv
            (fun name rows hm => hfresh name rows (List.mem_cons_of_mem f hm))
            hnd.2
        · by_cases h3 : (parse_ecg_csv f.2).samples.isEmpty = true
          · have hstep : ecgFileStep e true d st f = st := by
              rw [ecgFileStep, if_neg h1, if_neg (by simp [h2]), if_pos h3]
            rw [hstep]
            exact ecgRun_ids d e rest st hinv
              (fun name rows hm =>
                hfresh name rows (List.mem_cons_of_mem f hm))
              hnd.2
          · have hnotin : joinPath d f.1 ∉ ecgPaths st.1 := fun hmem =>
              h2 (hfresh f.1 f.2 (by simp) hmem)
            have hins : insertEcgRow
                ⟨st.1.records, st.1.samples ++
                  mkSampleRows st.2.1 (parse_ecg_csv f.2).samples⟩
                (mkEcgRow st.2.1 (joinPath d f.1) (parse_ecg_csv f.2)) =
                ⟨st.1.records ++
                  [mkEcgRow st.2.1 (joinPath d f.1) (parse_ecg_csv f.2)],
                  st.1.samples ++
                    mkSampleRows st.2.1 (parse_ecg_csv f.2).samples⟩ := by
              rw [insertEcgRow]
              rw [if_neg ?hc]
              case hc =>
                rintro (hp | hid)
                · exact hnotin hp
                · exact lt_irrefl st.2.1 (hinv _ hid)
            have hstep : ecgFileStep e true d st f =
                (⟨st.1.records ++
                  [mkEcgRow st.2.1 (joinPath d f.1) (parse_ecg_csv f.2)],
                  st.1.samples ++
                    mkSampleRows st.2.1 (parse_ecg_csv f.2).samples⟩,
                  st.2.1 + 1, st.2.2 + 1) := by
              rw [ecgFileStep, if_neg h1, if_neg (by simp [h2]),
                if_neg (by simp [h3]), hins]
            rw [hstep]
            have hinv' : ∀ i ∈ ecgIds
                (⟨st.1.records ++
                  [mkEcgRow st.2.1 (joinPath d f.1) (parse_ecg_csv f.2)],
                  st.1.samples ++
                    mkSampleRows st.2.1 (parse_ecg_csv f.2).samples⟩ :
                      EcgDB),
                i < st.2.1 + 1 := by
              intro i hi
              have hi2 : i ∈ (st.1.records ++
                  [mkEcgRow st.2.1 (joinPath d f.1)
                    (parse_ecg_csv f.2)]).map EcgRow.id := hi
              rw [List.map_append] at hi2
              rcases List.mem_append.mp hi2 with hold | hnew
              · exact Nat.lt_succ_of_lt (hinv i hold)
              · rcases List.mem_singleton.mp hnew with rfl
                exact Nat.lt_succ_self _
            have hfresh' : ∀ name rows, (name, rows) ∈ rest →
                joinPath d name ∈ ecgPaths
                  (⟨st.1.records ++
                    [mkEcgRow st.2.1 (joinPath d f.1) (parse_ecg_csv f.2)],
                    st.1.samples ++
                      mkSampleRows st.2.1 (parse_ecg_csv f.2).samples⟩ :
                        EcgDB) →
                joinPath d name ∈ e := by
              intro name rows hm hmem
              have hmem2 : joinPath d name ∈ (st.1.records ++
                  [mkEcgRow st.2.1 (joinPath d f.1)
                    (parse_ecg_csv f.2)]).map EcgRow.file_path := hmem
              rw [List.map_append] at hmem2
              rcases List.mem_append.mp hmem2 with hold | hnew
              · exact hfresh name rows (List.mem_cons_of_mem f hm) hold
              · have heq := List.mem_singleton.mp hnew
                have hname : name = f.1 := joinPath_inj heq
                exact absurd (hname ▸ (List.mem_map.mpr ⟨(name, rows), hm,
                  hname ▸ rfl⟩)) hnd.1
            obtain ⟨ih1, ih2, ih3, ih4⟩ := ecgRun_ids d e rest
              (⟨st.1.records ++
                [mkEcgRow st.2.1 (joinPath d f.1) (parse_ecg_csv f.2)],
                st.1.samples ++
                  mkSampleRows st.2.1 (parse_ecg_csv f.2).samples⟩,
                st.2.1 + 1, st.2.2 + 1) hinv' hfresh' hnd.2
            dsimp only at ih1 ih2 ih3 ih4
            refine ⟨?_, by omega, by omega, by omega⟩
            rw [ih1]
            have hids : ecgIds
                (⟨st.1.records ++
                  [mkEcgRow st.2.1 (joinPath d f.1) (parse_ecg_csv f.2)],
                  st.1.samples ++
                    mkSampleRows st.2.1 (parse_ecg_csv f.2).samples⟩ :
                      EcgDB) =
                ecgIds st.1 ++ [st.2.1] := by
              show (st.1.records ++
                [mkEcgRow st.2.1 (joinPath d f.1)
                  (parse_ecg_csv f.2)]).map EcgRow.id = _
              rw [List.map_append]
              rfl
            rw [hids, List.append_assoc]
            congr 1
            have hdelta : (rest.foldl (ecgFileStep e true d)
                (⟨st.1.records ++
                  [mkEcgRow st.2.1 (joinPath d f.1) (parse_ecg_csv f.2)],
                  st.1.samples ++
                    mkSampleRows st.2.1 (parse_ecg_csv f.2).samples⟩,
                  st.2.1 + 1, st.2.2 + 1)).2.1 - st.2.1 =
                ((rest.foldl (ecgFileStep e true d)
                  (⟨st.1.records ++
                    [mkEcgRow st.2.1 (joinPath d f.1) (parse_ecg_csv f.2)],
                    st.1.samples ++
                      mkSampleRows st.2.1
                        (parse_ecg_csv f.2).samples⟩,
                    st.2.1 + 1, st.2.2 + 1)).2.1 - (st.2.1 + 1)) + 1 := by
              omega
            rw [hdelta, List.range'_succ]
            rfl

/-- C2 as amended: the primary ingestion writes, for every entity kind, a
dense id sequence 1..N (it never reads existing ids — a store with
existing rows makes the strict INSERT collide, see the counterexample);
the post-process importers, with skip-existing enabled and distinct file
names, extend the stored ids by a dense block starting at
max(existing id)+1 (1 for an empty table) of length equal to the returned
inserted count. -/
theorem claim_C2 :
    (∀ (elems : List EntityKind) (bs : Nat) (k : EntityKind),
      (ingestFinal elems bs).tables k =
        List.range' 1 (elems.countP (fun j => j = k))) ∧
    (∀ (db : RouteDB) (dir : Text) (files : List (Text × List RoutePoint)),
      (files.map Prod.fst).Nodup →
      routeIds (import_workout_routes db dir files true).1 =
        routeIds db ++ List.range' (nextIdOf (routeIds db))
          (import_workout_routes db dir files true).2) ∧
    (∀ (db : EcgDB) (dir : Text) (files : List (Text × List (List Text))),
      (files.map Prod.fst).Nodup →
      ecgIds (import_ecg db dir files true).1 =
        ecgIds db ++ List.range' (nextIdOf (ecgIds db))
          (import_ecg db dir files true).2) := by
  refine ⟨?_, ?_, ?_⟩
  · intro elems bs k
    have h := ingest_fold_inv bs elems initIngest (fun j => rfl) k
    show (ingestRun elems bs).tables k ++ (ingestRun elems bs).buffers k = _
    rw [ingestRun, h.1, h.2]
    show List.range' 1 (0 + _) = _
    rw [Nat.zero_add]
  · intro db dir files hnd
    rw [import_routes_eq]
    obtain ⟨h1, h2, h3, h4⟩ := routeRun_ids dir (routePaths db) files
      (db, nextIdOf (routeIds db), 0) (fun i hi => lt_nextIdOf hi)
      (fun _ _ _ hmem => hmem) hnd
    dsimp only at h1 h2 h3 h4 ⊢
    rw [h1]
    congr 1
    have hdd : (files.foldl (routeFileStep (routePaths db) true dir)
        (db, nextIdOf (routeIds db), 0)).2.1 - nextIdOf (routeIds db) =
      (files.foldl (routeFileStep (routePaths db) true dir)
        (db, nextIdOf (routeIds db), 0)).2.2 := by omega
    rw [hdd]
  · intro db dir files hnd
    rw [import_ecg_eq]
    obtain ⟨h1, h2, h3, h4⟩ := ecgRun_ids dir (ecgPaths db) files
      (db, nextIdOf (ecgIds db), 0) (fun i hi => lt_nextIdOf hi)
      (fun _ _ _ hmem => hmem) hnd
    dsimp only at h1 h2 h3 h4 ⊢
    rw [h1]
    congr 1
    have hdd : (files.foldl (ecgFileStep (ecgPaths db) true dir)
        (db, nextIdOf (ecgIds db), 0)).2.1 - nextIdOf (ecgIds db) =
      (files.foldl (ecgFileStep (ecgPaths db) true dir)
        (db, nextIdOf (ecgIds db), 0)).2.2 := by omega
    rw [hdd]

/-- Witness for C2 as amended: one Record element yields the id sequence
[1], and an import over an empty listing extends the ids by an empty dense
block. -/
theorem claim_C2_witness :
    (ingestFinal [EntityKind.record] 10).tables EntityKind.record =
      List.range' 1 1 ∧
    routeIds (import_workout_routes ⟨[], []⟩ ['d'] [] true).1 =
      routeIds (⟨[], []⟩ : RouteDB) ++
        List.range' (nextIdOf (routeIds (⟨[], []⟩ : RouteDB)))
          (import_workout_routes ⟨[], []⟩ ['d'] [] true).2 :=
  ⟨claim_C2.1 [EntityKind.record] 10 EntityKind.record,
    claim_C2.2.1 ⟨[], []⟩ ['d'] [] (by simp)⟩

lemma ws_not_digit {c : Char} (h : isAsciiWs c = true) : isDigitChar c = false := by
  rw [isAsciiWs] at h
  simp only [Bool.or_eq_true, decide_eq_true_eq] at h
  rcases h with ((((h | h) | h) | h) | h) | h <;> subst h <;> decide

lemma digit_not_ws {c : Char} (h : isDigitChar c = true) : isAsciiWs c = false := by
  cases hb : isAsciiWs c with
  | false => rfl
  | true => rw [ws_not_digit hb] at h; cases h

lemma digit_ne_plus {c : Char} (h : isDigitChar c = true) : c ≠ '+' :=
  fun he => absurd (he ▸ h) (by decide)

lemma digit_ne_minus {c : Char} (h : isDigitChar c = true) : c ≠ '-' :=
  fun he => absurd (he ▸ h) (by decide)

lemma takeWhile_of_all {p : Char → Bool} :
    ∀ {l : Text}, l.all p = true → l.takeWhile p = l
  | [], _ => rfl
  | c :: t, h => by
      rw [List.all_cons, Bool.and_eq_true] at h
      rw [List.takeWhile_cons, if_pos h.1, takeWhile_of_all h.2]

lemma dropWhile_of_all {p : Char → Bool} :
    ∀ {l : Text}, l.all p = true → l.dropWhile p = []
  | [], _ => rfl
  | c :: t, h => by
      rw [List.all_cons, Bool.and_eq_true] at h
      rw [List.dropWhile_cons, if_pos h.1, dropWhile_of_all h.2]

lemma takeWhile_of_none {p : Char → Bool} {l : Text}
    (h : l.all (fun c => !p c) = true) : l.takeWhile p = [] := by
  cases l with
  | nil => rfl
  | cons c t =>
      rw [List.all_cons, Bool.and_eq_true] at h
      rw [List.takeWhile_cons, if_neg (by simpa using h.1)]

lemma dropWhile_of_none {p : Char → Bool} {l : Text}
    (h : l.all (fun c => !p c) = true) : l.dropWhile p = l := by
  cases l with
  | nil => rfl
  | cons c t =>
      rw [List.all_cons, Bool.and_eq_true] at h
      rw [List.dropWhile_cons, if_neg (by simpa using h.1)]

lemma parseMantissa_of_ok {l : Text} (h : numBodyOk l = true) :
    parseMantissa l = (numBodyVal l, true, ([] : Text)) := by
  simp only [numBodyOk] at h
  rw [Bool.and_eq_true] at h
  obtain ⟨h1, h2⟩ := h
  rw [Bool.not_eq_true'] at h1
  rw [Bool.or_eq_true] at h2
  simp only [parseMantissa, spanDigits, numBodyVal]
  rcases h2 with h2 | h2
  · rw [List.isEmpty_iff] at h2
    rw [h2, if_neg (by simp), h1]
    have hz : digitsVal ([] : Text) = 0 := rfl
    simp only [List.drop_nil, List.takeWhile_nil, List.length_nil, hz]
    norm_num
  · rw [Bool.and_eq_true, Bool.and_eq_true] at h2
    obtain ⟨⟨hdot, hne⟩, hall⟩ := h2
    rw [decide_eq_true_eq] at hdot
    rw [if_pos hdot, takeWhile_of_all hall, dropWhile_of_all hall, h1]
    norm_num

lemma parseSign_digit {c : Char} {t : Text} (h : isDigitChar c = true) :
    parseSign (c :: t) = (false, c :: t) := by
  rw [parseSign]
  rw [if_neg (digit_ne_minus h), if_neg (digit_ne_plus h)]

lemma dropWhile_ws_digit {c : Char} {t : Text} (h : isDigitChar c = true) :
    (c :: t).dropWhile isAsciiWs = c :: t := by
  rw [List.dropWhile_cons, if_neg (by simp [digit_not_ws h])]

lemma body_head_digit {l : Text} (h : numBodyOk l = true) :
    ∃ c t, l = c :: t ∧ isDigitChar c = true := by
  simp only [numBodyOk] at h
  rw [Bool.and_eq_true] at h
  obtain ⟨h1, _⟩ := h
  rw [Bool.not_eq_true'] at h1
  cases l with
  | nil => cases h1
  | cons c t =>
      refine ⟨c, t, rfl, ?_⟩
      cases hd : isDigitChar c with
      | true => rfl
      | false =>
          rw [List.takeWhile_cons, if_neg (by simp [hd])] at h1
          cases h1

lemma sqlite_body {l : Text} (h : numBodyOk l = true) :
    sqliteTextToReal l = numBodyVal l := by
  obtain ⟨c, t, rfl, hd⟩ := body_head_digit h
  rw [sqliteTextToReal, dropWhile_ws_digit hd, parseSign_digit hd]
  dsimp only
  rw [parseMantissa_of_ok h]
  dsimp only
  simp [parseExpo]

lemma sqlite_signed (neg : Bool) {body : Text} (h : numBodyOk body = true) :
    sqliteTextToReal ((if neg then '-' else '+') :: body) =
      (if neg then -(numBodyVal body) else numBodyVal body) := by
  cases neg with
  | false =>
      show sqliteTextToReal ('+' :: body) = numBodyVal body
      rw [sqliteTextToReal, List.dropWhile_cons, if_neg (by decide),
        parseSign, if_neg (by decide), if_pos rfl]
      dsimp only
      rw [parseMantissa_of_ok h]
      dsimp only
      simp [parseExpo]
  | true =>
      show sqliteTextToReal ('-' :: body) = -(numBodyVal body)
      rw [sqliteTextToReal, List.dropWhile_cons, if_neg (by decide),
        parseSign, if_pos rfl]
      dsimp only
      rw [parseMantissa_of_ok h]
      dsimp only
      simp [parseExpo]

lemma all_not_digit_dropWs {l : Text}
    (h : l.all (fun c => !isDigitChar c) = true) :
    (l.dropWhile isAsciiWs).all (fun c => !isDigitChar c) = true := by
  have ht := List.takeWhile_append_dropWhile (p := isAsciiWs) (l := l)
  rw [← ht, List.all_append, Bool.and_eq_true] at h
  exact h.2

lemma parseMantissa_no_digit {x : Text}
    (h : x.all (fun c => !isDigitChar c) = true) :
    (parseMantissa x).2.1 = false := by
  simp only [parseMantissa, spanDigits, takeWhile_of_none h,
    dropWhile_of_none h]
  by_cases hx : x.head? = some '.'
  · rw [if_pos hx]
    have htl : (x.drop 1).all (fun c => !isDigitChar c) = true := by
      cases x with
      | nil => rfl
      | cons a t =>
          rw [List.all_cons, Bool.and_eq_true] at h
          simpa using h.2
    rw [takeWhile_of_none htl]
    rfl
  · rw [if_neg hx]
    rfl

/-- C3 as amended: value_num is SQLite's CAST(value AS REAL) — null
exactly when the stored value is null; for text matching the numeric
format it is its numeric reading; for text containing no digit at all it
is 0.0, not null, and the cast is total (never an error). -/
theorem claim_C3 :
    recordsNormValueNum none = none ∧
    (∀ s : Text, recordsNormValueNum (some s) = some (sqliteTextToReal s)) ∧
    (∀ s : Text, isNumberText s = true → sqliteTextToReal s = numberVal s) ∧
    (∀ s : Text, s.all (fun c => !isDigitChar c) = true →
      sqliteTextToReal s = 0) := by
  refine ⟨rfl, fun s => rfl, ?_, ?_⟩
  · intro s h
    cases s with
    | nil => exact absurd h (by decide)
    | cons c t =>
        rw [isNumberText] at h
        rw [numberVal]
        by_cases hp : c = '+'
        · subst hp
          rw [if_pos rfl] at h
          rw [if_pos rfl]
          simpa using sqlite_signed false h
        · by_cases hm : c = '-'
          · subst hm
            rw [if_neg (by decide), if_pos rfl] at h
            rw [if_neg (by decide), if_pos rfl]
            simpa using sqlite_signed true h
          · rw [if_neg hp, if_neg hm] at h
            rw [if_neg hp, if_neg hm]
            exact sqlite_body h
  · intro s h
    rw [sqliteTextToReal]
    have h1 := all_not_digit_dropWs h
    cases hl : s.dropWhile isAsciiWs with
    | nil => rfl
    | cons c r =>
        rw [hl] at h1
        have h1c := h1
        rw [List.all_cons, Bool.and_eq_true] at h1
        rw [parseSign]
        by_cases hcm : c = '-'
        · rw [if_pos hcm]
          dsimp only
          rcases hmm : parseMantissa r with ⟨m, sd, r2⟩
          have hsd := parseMantissa_no_digit h1.2
          rw [hmm] at hsd
          dsimp only at hsd
          dsimp only
          rw [hsd]
          simp
        · by_cases hcp : c = '+'
          · rw [if_neg hcm, if_pos hcp]
            dsimp only
            rcases hmm : parseMantissa r with ⟨m, sd, r2⟩
            have hsd := parseMantissa_no_digit h1.2
            rw [hmm] at hsd
            dsimp only at hsd
            dsimp only
            rw [hsd]
            simp
          · rw [if_neg hcm, if_neg hcp]
            dsimp only
            rcases hmm : parseMantissa (c :: r) with ⟨m, sd, r2⟩
            have hsd := parseMantissa_no_digit h1c
            rw [hmm] at hsd
            dsimp only at hsd
            dsimp only
            rw [hsd]
            simp

/-- Witness for C3 as amended: the numeric text 120 casts to its value
and the digit-free text x casts to 0. -/
theorem claim_C3_witness :
    sqliteTextToReal ['1', '2', '0'] = numberVal ['1', '2', '0'] ∧
    sqliteTextToReal ['x'] = 0 :=
  ⟨claim_C3.2.2.1 ['1', '2', '0'] (by decide),
    claim_C3.2.2.2 ['x'] (by decide)⟩

/-- Counterexample to C3 as stated: the non-numeric stored text abc is
cast by the view to 0.0, not to null — CAST(value AS REAL) never yields
null for non-null input. -/
theorem claim_C3_counterexample :
    recordsNormValueNum (some ['a', 'b', 'c']) = some 0 ∧
    specValueNum (some ['a', 'b', 'c']) = none ∧
    recordsNormValueNum (some ['a', 'b', 'c']) ≠
      specValueNum (some ['a', 'b', 'c']) := by
  refine ⟨by decide, by decide, by decide⟩
